import Mathlib

set_option maxHeartbeats 1000000

/-!
Shallow embedding of `src/server.py` (Unhinged Listings backend):
a FastAPI application over a MongoDB document store with two collections,
`listings` and `site_settings`.  The document store is modelled explicitly:
the `listings` collection is a list of documents in natural (insertion)
order, the `site_settings` collection is an optional singleton document.
MongoDB sorts are modelled as stable merge sorts; `update_one`/`delete_one`
act on the first matching document (the `_id` filter matches at most one
document in a real store, where `_id` is unique).

External collaborators are abstracted as parameters:
  * the configured admin secret (`ADMIN_PASSWORD` environment value) is the
    `adminPassword` argument of each handler;
  * the clock (`datetime.utcnow()`) is a `Nat` argument `now`;
  * the iso-8601 parser `datetime.fromisoformat` is a `String → Option Nat`
    argument (`none` models a `ValueError`);
  * the store-assigned `_id` of an insert is a `String` argument.

Handlers that mutate the store return `Store × Except HError resp`: the
returned store is the store after the call (unchanged when the handler
raises before touching the database).  Read-only handlers, which issue only
`find` queries, are embedded as pure functions of the store.
-/

namespace Unhinged

/-- JSON-like values (request bodies and the settings document). -/
inductive JVal where
  | s (v : String)
  | num (v : Int)
  | b (v : Bool)
  | arr (v : List JVal)
  | obj (v : List (String × JVal))
  | null

/-- An `HTTPException`: status code and detail string. -/
structure HError where
  status : Nat
  detail : String
  deriving DecidableEq, Repr

def invalidPassword : HError := ⟨401, "Invalid password"⟩

def listingNotFound : HError := ⟨404, "Listing not found"⟩

def noFieldsToUpdate : HError := ⟨400, "No fields to update"⟩

/-- An unhandled exception surfaced by the framework as a 500 response
(used for branches the Python code would only reach through a crash). -/
def internalError : HError := ⟨500, "Internal Server Error"⟩

/-- A document of the `listings` collection.  Every field written by this
program is present, except `sortOrder`, which the seed fixtures omit, so it
is modelled as optional exactly as the code treats it (`.get`/default).
Timestamps are abstract clock readings (`Nat`); `price` is a number on
which the program performs no arithmetic. -/
structure ListingDoc where
  oid : String
  title : String
  price : Int
  status : String
  image : String
  excerpt : String
  fullText : String
  facebookUrl : String
  category : String
  location : String
  postedDate : Nat
  createdAt : Nat
  updatedAt : Nat
  sortOrder : Option Int
  deriving DecidableEq, Repr

/-- The response shape produced by `listing_to_dict` (no `updatedAt`). -/
structure ListingOut where
  id : String
  title : String
  price : Int
  status : String
  image : String
  excerpt : String
  fullText : String
  facebookUrl : String
  category : String
  location : String
  postedDate : Nat
  createdAt : Nat
  sortOrder : Int
  deriving DecidableEq, Repr

/-- `listing_to_dict`: serialises a stored document, defaulting a missing
`sortOrder` to 999. -/
def listing_to_dict (l : ListingDoc) : ListingOut :=
  ⟨l.oid, l.title, l.price, l.status, l.image, l.excerpt, l.fullText,
   l.facebookUrl, l.category, l.location, l.postedDate, l.createdAt,
   l.sortOrder.getD 999⟩

/-- BSON comparison of a possibly-missing `sortOrder`: a missing field is
treated as null, which sorts below every number. -/
def bsonLe : Option Int → Option Int → Bool
  | none, _ => true
  | some _, none => false
  | some a, some b => a ≤ b

/-- Comparator for `.sort("sortOrder", 1)`. -/
def sortAsc (a b : ListingDoc) : Bool := bsonLe a.sortOrder b.sortOrder

/-- Comparator for `sort=[("sortOrder", -1)]`. -/
def sortDesc (a b : ListingDoc) : Bool := bsonLe b.sortOrder a.sortOrder

def isHexChar (c : Char) : Bool :=
  (('0' ≤ c && c ≤ '9') || ('a' ≤ c && c ≤ 'f') || ('A' ≤ c && c ≤ 'F'))

/-- `bson.ObjectId.is_valid` on a string: exactly 24 hexadecimal characters. -/
def objectIdValid (s : String) : Bool :=
  s.length == 24 && s.toList.all isHexChar

/-- The persistent state: the two MongoDB collections. -/
structure Store where
  listings : List ListingDoc
  siteSettings : Option (List (String × JVal))

/-- `verify_admin`: `some e` is the raised `HTTPException`, `none` means the
check passed. -/
def verify_admin (adminPassword password : String) : Option HError :=
  if password != adminPassword then some invalidPassword else none

/-- The query document built by `get_listings`: empty unless a category
filter is given that is truthy and different from `"all"` (the empty string
is falsy in Python, hence unfiltered). -/
def listingsFilter (category : Option String) : ListingDoc → Bool :=
  match category with
  | some c => if c != "" && c != "all" then fun d => d.category == c else fun _ => true
  | none => fun _ => true

/-- The documents returned by `GET /api/listings`: filter, sort ascending by
`sortOrder`, cap at 200 (`to_list(length=200)`). -/
def get_listings_docs (s : Store) (category : Option String) : List ListingDoc :=
  ((s.listings.filter (listingsFilter category)).mergeSort sortAsc).take 200

/-- `GET /api/listings`. -/
def get_listings (s : Store) (category : Option String) : List ListingOut :=
  (get_listings_docs s category).map listing_to_dict

/-- `GET /api/listings/{listing_id}`. -/
def get_listing (s : Store) (listing_id : String) : Except HError ListingOut :=
  if !objectIdValid listing_id then .error listingNotFound
  else
    match s.listings.find? (fun d => d.oid == listing_id) with
    | none => .error listingNotFound
    | some l => .ok (listing_to_dict l)

/-- The parsed `ListingCreate` body, with the pydantic field defaults. -/
structure ListingCreate where
  title : String
  price : Int
  status : String := "In Stock"
  image : String := ""
  excerpt : String
  fullText : String
  facebookUrl : String := ""
  category : String
  location : String := "Colorado Springs, CO"
  postedDate : Option String := none
  deriving DecidableEq, Repr

/-- `find_one(sort=[("sortOrder", -1)])`: the first document of the
descending stable sort, i.e. a document with maximal `sortOrder`. -/
def find_one_max_sortOrder (l : List ListingDoc) : Option ListingDoc :=
  (l.mergeSort sortDesc).head?

/-- `(max_order.get("sortOrder", 0) + 1) if max_order else 0`. -/
def computeSortOrder (l : List ListingDoc) : Int :=
  match find_one_max_sortOrder l with
  | some m => m.sortOrder.getD 0 + 1
  | none => 0

/-- The `postedDate` computed by `create_listing`: a truthy supplied string
is parsed, with the current time on parse failure; an absent or empty
(falsy) string yields the current time. -/
def createPostedDate (fromiso : String → Option Nat) (pd : Option String)
    (now : Nat) : Nat :=
  match pd with
  | some ds => if ds == "" then now else (fromiso ds).getD now
  | none => now

/-- The document inserted by `create_listing`. -/
def createdDoc (fromiso : String → Option Nat) (s : Store)
    (listing : ListingCreate) (now : Nat) (newId : String) : ListingDoc :=
  ⟨newId, listing.title, listing.price, listing.status, listing.image,
   listing.excerpt, listing.fullText, listing.facebookUrl, listing.category,
   listing.location, createPostedDate fromiso listing.postedDate now,
   now, now, some (computeSortOrder s.listings)⟩

/-- `POST /api/admin/listings`. -/
def create_listing (adminPassword : String) (fromiso : String → Option Nat)
    (s : Store) (password : String) (listing : ListingCreate)
    (now : Nat) (newId : String) : Store × Except HError ListingOut :=
  match verify_admin adminPassword password with
  | some e => (s, .error e)
  | none =>
    let doc := createdDoc fromiso s listing now newId
    let listings2 := s.listings ++ [doc]
    match listings2.find? (fun d => d.oid == newId) with
    | some created => ({ s with listings := listings2 }, .ok (listing_to_dict created))
    | none => ({ s with listings := listings2 }, .error internalError)

/-- The parsed `ListingUpdate` body: every field optional, `none` for an
absent or explicitly-null field. -/
structure ListingUpdate where
  title : Option String := none
  price : Option Int := none
  status : Option String := none
  image : Option String := none
  excerpt : Option String := none
  fullText : Option String := none
  facebookUrl : Option String := none
  category : Option String := none
  location : Option String := none
  deriving DecidableEq, Repr

/-- `update_data` is empty: every optional field is `None`. -/
def ListingUpdate.isEmpty (u : ListingUpdate) : Bool :=
  u.title.isNone && u.price.isNone && u.status.isNone && u.image.isNone &&
  u.excerpt.isNone && u.fullText.isNone && u.facebookUrl.isNone &&
  u.category.isNone && u.location.isNone

/-- The `$set` applied by `update_listing`: the non-`None` fields of the
body, plus a refreshed `updatedAt`. -/
def applySet (u : ListingUpdate) (now : Nat) (d : ListingDoc) : ListingDoc :=
  { d with
    title := u.title.getD d.title
    price := u.price.getD d.price
    status := u.status.getD d.status
    image := u.image.getD d.image
    excerpt := u.excerpt.getD d.excerpt
    fullText := u.fullText.getD d.fullText
    facebookUrl := u.facebookUrl.getD d.facebookUrl
    category := u.category.getD d.category
    location := u.location.getD d.location
    updatedAt := now }

/-- `update_one` on an `_id` filter: rewrites the first matching document
(`_id` is unique in a real store, so at most one document matches). -/
def update_one (l : List ListingDoc) (lid : String)
    (f : ListingDoc → ListingDoc) : List ListingDoc :=
  match l with
  | [] => []
  | d :: rest => if d.oid == lid then f d :: rest else d :: update_one rest lid f

/-- Whether an `_id` filter matches some document (`matched_count > 0`,
`deleted_count > 0`). -/
def matchesId (l : List ListingDoc) (lid : String) : Bool :=
  l.any (fun d => d.oid == lid)

/-- `PUT /api/admin/listings/{listing_id}`. -/
def update_listing (adminPassword : String) (s : Store) (password : String)
    (listing_id : String) (updates : ListingUpdate) (now : Nat) :
    Store × Except HError ListingOut :=
  match verify_admin adminPassword password with
  | some e => (s, .error e)
  | none =>
    if !objectIdValid listing_id then (s, .error listingNotFound)
    else if updates.isEmpty then (s, .error noFieldsToUpdate)
    else
      let listings2 := update_one s.listings listing_id (applySet updates now)
      if !matchesId s.listings listing_id then
        ({ s with listings := listings2 }, .error listingNotFound)
      else
        match listings2.find? (fun d => d.oid == listing_id) with
        | some updated => ({ s with listings := listings2 }, .ok (listing_to_dict updated))
        | none => ({ s with listings := listings2 }, .error internalError)

/-- `delete_one` on an `_id` filter: removes the first matching document. -/
def delete_one (l : List ListingDoc) (lid : String) : List ListingDoc :=
  match l with
  | [] => []
  | d :: rest => if d.oid == lid then rest else d :: delete_one rest lid

/-- The `{"ok": true, "deleted": listing_id}` response. -/
structure DeleteResp where
  ok : Bool
  deleted : String
  deriving DecidableEq, Repr

/-- The `{"ok": true}` response. -/
structure OkResp where
  ok : Bool
  deriving DecidableEq, Repr

/-- `DELETE /api/admin/listings/{listing_id}`. -/
def delete_listing (adminPassword : String) (s : Store) (password : String)
    (listing_id : String) : Store × Except HError DeleteResp :=
  match verify_admin adminPassword password with
  | some e => (s, .error e)
  | none =>
    if !objectIdValid listing_id then (s, .error listingNotFound)
    else
      let listings2 := delete_one s.listings listing_id
      if !matchesId s.listings listing_id then
        ({ s with listings := listings2 }, .error listingNotFound)
      else
        ({ s with listings := listings2 }, .ok ⟨true, listing_id⟩)

/-- The loop body of `reorder_listings`: walk the submitted ids with their
`enumerate` index, setting `sortOrder` for each id that passes
`ObjectId.is_valid` and skipping the rest (the index advances either way). -/
def reorderPass (l : List ListingDoc) (order : List String) (i : Nat) :
    List ListingDoc :=
  match order with
  | [] => l
  | lid :: rest =>
    let l2 := if objectIdValid lid then
        update_one l lid (fun d => { d with sortOrder := some (i : Int) })
      else l
    reorderPass l2 rest (i + 1)

/-- `PUT /api/admin/reorder`. -/
def reorder_listings (adminPassword : String) (s : Store) (password : String)
    (order : List String) : Store × Except HError OkResp :=
  match verify_admin adminPassword password with
  | some e => (s, .error e)
  | none => ({ s with listings := reorderPass s.listings order 0 }, .ok ⟨true⟩)

/-- The `DEFAULT_SETTINGS` dict, transcribed entry for entry (apostrophes
and inner double quotes are written as `\x27` and `\x22` escapes). -/
def DEFAULT_SETTINGS : List (String × JVal) := [
  ("siteTitle", .s "unhinged listings"),
  ("subtitle", .s "colorado springs > for sale / wanted > general for sale"),
  ("tagline", .s "where mundane commerce meets existential dread"),
  ("description", .s "real items for sale, written through the lens of late-stage capitalism and fourth-wall-breaking nihilism"),
  ("categories", .arr [
    .obj [("id", .s "all"), ("name", .s "All Listings")],
    .obj [("id", .s "household"), ("name", .s "Household Items")],
    .obj [("id", .s "furniture"), ("name", .s "Furniture")],
    .obj [("id", .s "tools"), ("name", .s "Tools & Equipment")],
    .obj [("id", .s "vintage"), ("name", .s "Vintage & Collectibles")]]),
  ("safetyTips", .s "meet in public places\ndon\x27t wire money\navoid offers that seem too good\nbeware of existential dread"),
  ("footerText", .s "unhinged listings | all rights reserved to question reality through commerce"),
  ("footerLinks", .s "help | safety | privacy | feedback | craigslist blog | best of craigslist | existential crisis support"),
  ("aboutTitle", .s "About Unhinged Listings"),
  ("aboutIntro", .s "This is an ongoing performance art piece disguised as classified ads. Each listing starts as a real item for sale from my actual home, but transforms into absurdist literature that questions the nature of consumer culture, late-stage capitalism, and the commodification of our lives."),
  ("aboutProcess", .s "Find real item to sell from my home\nStart writing \x22normal\x22 classified ad\nLet nihilistic stream-of-consciousness take over\nBreak fourth wall, question existence\nPost to Facebook Marketplace as functional ad\nArchive here as art piece"),
  ("aboutQuote", .s "Full disclosure, this chair does not make you weightless. The laws of universe still apply. I called the manufacturer to complain and they told me that I should shove the chair somewhere inappropriate. I told them I\x27d already done that but I still wasn\x27t weightless."),
  ("aboutQuoteSource", .s "From the Zero Gravity Chair listing"),
  ("aboutPhilosophy", .s "What if classified ads were honest? What if they revealed not just the condition of our possessions, but the condition of our souls? Through intentional existential spirals and absurdist descriptions, these \x22ads\x22 become literature that questions why we buy, why we sell, and why we pretend any of this makes sense."),
  ("aboutAuthenticity", .s "All items are real and actually for sale. The Facebook Marketplace links lead to the live ads (when active). Some sell, some don\x27t, but all serve as both functional commerce and performance art. The unhinged descriptions are posted exactly as written to actual buyers on Facebook Marketplace."),
  ("aboutWarning", .s "Reading these listings may cause existential questioning about the nature of capitalism, the meaning of ownership, and why we accumulate objects only to eventually sell them to strangers on the internet."),
  ("contactText", .s "Serious inquiries only. Cash preferred. Must be able to handle existential conversations about the nature of commerce.")]

/-- Dict lookup on a document (first binding of the key). -/
def lookupKey (doc : List (String × JVal)) (k : String) : Option JVal :=
  match doc.find? (fun kv => kv.1 == k) with
  | some kv => some kv.2
  | none => none

/-- `key in settings` on a document. -/
def hasKey (doc : List (String × JVal)) (k : String) : Bool :=
  doc.any (fun kv => kv.1 == k)

/-- The backfill loop of `get_settings`: for every default key not present
in the document, append the default binding (dict insertion order). -/
def backfillDefaults (doc : List (String × JVal)) : List (String × JVal) :=
  DEFAULT_SETTINGS.foldl (fun d kv => if hasKey d kv.1 then d else d ++ [kv]) doc

/-- `GET /api/settings` (the stored `_id` key is not part of the modelled
document, matching the `pop("_id", None)`; the handler only reads). -/
def get_settings (s : Store) : List (String × JVal) :=
  match s.siteSettings with
  | some settings => backfillDefaults settings
  | none => DEFAULT_SETTINGS

/-- `settings[k] = v` on a dict: overwrite the binding in place if the key
is present, append it otherwise. -/
def setKey (doc : List (String × JVal)) (k : String) (v : JVal) :
    List (String × JVal) :=
  if hasKey doc k then doc.map (fun kv => if kv.1 == k then (k, v) else kv)
  else doc ++ [(k, v)]

/-- A `$set` of several fields (the upsert creates the document from an
empty one, i.e. from `_id` only). -/
def setFields (doc : List (String × JVal)) (data : List (String × JVal)) :
    List (String × JVal) :=
  data.foldl (fun d kv => setKey d kv.1 kv.2) doc

/-- Abstract rendering of `datetime.utcnow().isoformat()` at clock value
`t`. -/
def isoTime (t : Nat) : String := toString t

/-- `lastPos order x` is the position of the last occurrence of `x` in
`order` (the last positional update of the reorder loop wins when an id is
submitted twice); on duplicate-free sequences it is the position of the
unique occurrence. -/
def lastPos (order : List String) (x : String) : Option Nat :=
  match order with
  | [] => none
  | y :: ys =>
    match lastPos ys x with
    | some j => some (j + 1)
    | none => if y == x then some 0 else none

/-- The per-document effect of the whole reorder loop started at index
`i0`: a document whose id is well formed and occurs last at position `j`
of the submitted sequence ends with `sortOrder = i0 + j`; every other
document is untouched. -/
def reorderAssign (order : List String) (i0 : Nat) (d : ListingDoc) :
    ListingDoc :=
  match lastPos order d.oid with
  | some j =>
    if objectIdValid d.oid then { d with sortOrder := some ((i0 + j : Nat) : Int) }
    else d
  | none => d

/-- `PUT /api/admin/settings`: `data` is the parsed JSON body (a parsed
dict, so its keys are distinct). -/
def update_settings (adminPassword : String) (s : Store) (password : String)
    (data : List (String × JVal)) (now : Nat) : Store × Except HError OkResp :=
  match verify_admin adminPassword password with
  | some e => (s, .error e)
  | none =>
    let data2 := setKey data "updatedAt" (.s (isoTime now))
    ({ s with siteSettings := some (setFields (s.siteSettings.getD []) data2) },
     .ok ⟨true⟩)

/-! Concrete documents and stores used to evaluate the theorems on closed
inputs. -/

def exDoc1 : ListingDoc :=
  ⟨"507f1f77bcf86cd799439011", "Lamp", 10, "In Stock", "", "e", "f", "",
   "x", "Colorado Springs, CO", 5, 5, 5, some 0⟩

def exDoc2 : ListingDoc :=
  ⟨"507f1f77bcf86cd799439012", "Chair", 20, "Sold", "", "e2", "f2", "",
   "y", "Manitou Springs, CO", 6, 6, 6, some 1⟩

def exStore : Store := ⟨[exDoc1, exDoc2], none⟩

def exStore1 : Store := ⟨[exDoc1], none⟩

def exCreate : ListingCreate :=
  { title := "L", price := 1, excerpt := "e", fullText := "f", category := "c" }

def exUpdate : ListingUpdate := { title := some "Lamp2" }

/-! Helper lemmas about the comparators and the modelled store queries. -/

lemma bsonLe_refl (a : Option Int) : bsonLe a a = true := by
  cases a <;> simp [bsonLe]

lemma bsonLe_trans (a b c : Option Int) (h1 : bsonLe a b = true)
    (h2 : bsonLe b c = true) : bsonLe a c = true := by
  cases a <;> cases b <;> cases c <;> simp_all [bsonLe] <;> omega

lemma bsonLe_total (a b : Option Int) : (bsonLe a b || bsonLe b a) = true := by
  cases a <;> cases b <;> simp [bsonLe] <;> omega

lemma sortAsc_trans : ∀ a b c : ListingDoc, sortAsc a b = true →
    sortAsc b c = true → sortAsc a c = true :=
  fun _ _ _ h1 h2 => bsonLe_trans _ _ _ h1 h2

lemma sortAsc_total : ∀ a b : ListingDoc, (sortAsc a b || sortAsc b a) = true :=
  fun _ _ => bsonLe_total _ _

lemma sortDesc_trans : ∀ a b c : ListingDoc, sortDesc a b = true →
    sortDesc b c = true → sortDesc a c = true :=
  fun _ _ _ h1 h2 => bsonLe_trans _ _ _ h2 h1

lemma sortDesc_total : ∀ a b : ListingDoc, (sortDesc a b || sortDesc b a) = true :=
  fun a b => by rw [Bool.or_comm]; exact bsonLe_total _ _

lemma find_one_max_eq_none (l : List ListingDoc) :
    find_one_max_sortOrder l = none ↔ l = [] := by
  unfold find_one_max_sortOrder
  rw [List.head?_eq_none_iff]
  constructor
  · intro h
    have hp := List.mergeSort_perm l sortDesc
    rw [h] at hp
    exact (hp.symm).eq_nil
  · intro h; subst h; exact List.mergeSort_nil

lemma find_one_max_spec (l : List ListingDoc) (m : ListingDoc)
    (h : find_one_max_sortOrder l = some m) :
    m ∈ l ∧ ∀ d ∈ l, bsonLe d.sortOrder m.sortOrder = true := by
  unfold find_one_max_sortOrder at h
  obtain ⟨rest, hrest⟩ : ∃ rest, l.mergeSort sortDesc = m :: rest := by
    cases hms : l.mergeSort sortDesc with
    | nil => rw [hms] at h; simp at h
    | cons a rest =>
      rw [hms] at h
      simp at h
      exact ⟨rest, by rw [h]⟩
  have hperm := List.mergeSort_perm l sortDesc
  rw [hrest] at hperm
  have hsorted := List.sorted_mergeSort sortDesc_trans sortDesc_total l
  rw [hrest] at hsorted
  refine ⟨hperm.mem_iff.mp (List.mem_cons_self m rest), ?_⟩
  intro d hd
  have hd2 : d ∈ m :: rest := hperm.mem_iff.mpr hd
  rcases List.mem_cons.mp hd2 with h | h
  · subst h; exact bsonLe_refl _
  · exact (List.pairwise_cons.mp hsorted).1 d h

lemma computeSortOrder_nil : computeSortOrder [] = 0 := by
  unfold computeSortOrder
  rw [(find_one_max_eq_none []).mpr rfl]

lemma computeSortOrder_max (l : List ListingDoc) (d : ListingDoc) (m : Int)
    (hd : d ∈ l) (hso : d.sortOrder = some m)
    (hmax : ∀ d' ∈ l, bsonLe d'.sortOrder (some m) = true) :
    computeSortOrder l = m + 1 := by
  unfold computeSortOrder
  cases hfm : find_one_max_sortOrder l with
  | none => rw [find_one_max_eq_none] at hfm; subst hfm; simp at hd
  | some mx =>
    obtain ⟨hmem, hall⟩ := find_one_max_spec l mx hfm
    have h1 : bsonLe (some m) mx.sortOrder = true := hso ▸ hall d hd
    have h2 : bsonLe mx.sortOrder (some m) = true := hmax mx hmem
    cases hmx : mx.sortOrder with
    | none => rw [hmx] at h1; simp [bsonLe] at h1
    | some k =>
      rw [hmx] at h1 h2
      simp [bsonLe] at h1 h2
      have hkm : k = m := le_antisymm h2 h1
      subst hkm
      dsimp only
      rw [hmx]
      simp

lemma computeSortOrder_gt (l : List ListingDoc) (d : ListingDoc) (m : Int)
    (hd : d ∈ l) (hso : d.sortOrder = some m) :
    m < computeSortOrder l := by
  unfold computeSortOrder
  cases hfm : find_one_max_sortOrder l with
  | none => rw [find_one_max_eq_none] at hfm; subst hfm; simp at hd
  | some mx =>
    obtain ⟨hmem, hall⟩ := find_one_max_spec l mx hfm
    have h1 := hall d hd
    rw [hso] at h1
    cases hmx : mx.sortOrder with
    | none => rw [hmx] at h1; simp [bsonLe] at h1
    | some k =>
      rw [hmx] at h1
      simp [bsonLe] at h1
      dsimp only
      rw [hmx]
      simp
      omega

lemma create_listing_store (adminPassword : String)
    (fromiso : String → Option Nat) (s : Store) (lc : ListingCreate)
    (t : Nat) (nid : String) :
    (create_listing adminPassword fromiso s adminPassword lc t nid).1.listings
      = s.listings ++ [createdDoc fromiso s lc t nid] := by
  unfold create_listing verify_admin
  simp only [bne_self_eq_false, Bool.false_eq_true, if_false]
  cases h : (s.listings ++ [createdDoc fromiso s lc t nid]).find?
      (fun d => d.oid == nid) <;> simp

lemma update_one_not_mem (l : List ListingDoc) (lid : String)
    (f : ListingDoc → ListingDoc) (h : ∀ d ∈ l, d.oid ≠ lid) :
    update_one l lid f = l := by
  induction l with
  | nil => rfl
  | cons d rest ih =>
    unfold update_one
    rw [if_neg, ih (fun d' hd' => h d' (List.mem_cons_of_mem d hd'))]
    simp only [beq_iff_eq]
    exact h d (List.mem_cons_self d rest)

lemma update_one_eq_map (l : List ListingDoc) (lid : String)
    (f : ListingDoc → ListingDoc) (hnd : (l.map ListingDoc.oid).Nodup) :
    update_one l lid f = l.map (fun d => if d.oid == lid then f d else d) := by
  induction l with
  | nil => rfl
  | cons d rest ih =>
    simp only [List.map_cons, List.nodup_cons] at hnd
    obtain ⟨hhd, hnd2⟩ := hnd
    unfold update_one
    by_cases h : d.oid = lid
    · rw [if_pos (by simp [h]), List.map_cons, if_pos (by simp [h])]
      congr 1
      have : ∀ x ∈ rest, (if x.oid == lid then f x else x) = x := by
        intro x hx
        rw [if_neg]
        simp only [beq_iff_eq]
        intro hc
        exact hhd (h ▸ hc ▸ List.mem_map_of_mem ListingDoc.oid hx)
      rw [List.map_congr_left this, List.map_id']
    · rw [if_neg (by simp [h]), List.map_cons, if_neg (by simp [h]),
        ih hnd2]

lemma delete_one_not_mem (l : List ListingDoc) (lid : String)
    (h : ∀ d ∈ l, d.oid ≠ lid) : delete_one l lid = l := by
  induction l with
  | nil => rfl
  | cons d rest ih =>
    unfold delete_one
    rw [if_neg, ih (fun d' hd' => h d' (List.mem_cons_of_mem d hd'))]
    simp only [beq_iff_eq]
    exact h d (List.mem_cons_self d rest)

lemma delete_one_sublist (l : List ListingDoc) (lid : String) :
    (delete_one l lid).Sublist l := by
  induction l with
  | nil => exact List.Sublist.refl []
  | cons d rest ih =>
    unfold delete_one
    by_cases h : (d.oid == lid) = true
    · rw [if_pos h]; exact List.sublist_cons_self d rest
    · rw [if_neg h]; exact List.Sublist.cons₂ d ih

lemma delete_one_no_match (l : List ListingDoc) (lid : String)
    (hnd : (l.map ListingDoc.oid).Nodup) :
    ∀ d ∈ delete_one l lid, d.oid ≠ lid := by
  induction l with
  | nil => intro d hd; simp [delete_one] at hd
  | cons d0 rest ih =>
    simp only [List.map_cons, List.nodup_cons] at hnd
    obtain ⟨hhd, hnd2⟩ := hnd
    intro d hd
    unfold delete_one at hd
    by_cases h : (d0.oid == lid) = true
    · rw [if_pos h] at hd
      simp only [beq_iff_eq] at h
      intro hc
      exact hhd (h ▸ hc ▸ List.mem_map_of_mem ListingDoc.oid hd)
    · rw [if_neg h] at hd
      rcases List.mem_cons.mp hd with h2 | h2
      · subst h2
        simpa using h
      · exact ih hnd2 d h2

lemma matchesId_iff (l : List ListingDoc) (lid : String) :
    matchesId l lid = true ↔ ∃ d ∈ l, d.oid = lid := by
  simp [matchesId, List.any_eq_true]

/-! Lemmas about the settings dictionaries. -/

lemma hasKey_iff (doc : List (String × JVal)) (k : String) :
    hasKey doc k = true ↔ k ∈ doc.map Prod.fst := by
  simp only [hasKey, List.any_eq_true, List.mem_map, beq_iff_eq]

lemma hasKey_eq_false_iff (doc : List (String × JVal)) (k : String) :
    hasKey doc k = false ↔ k ∉ doc.map Prod.fst := by
  rw [← hasKey_iff]
  constructor
  · intro h hc; rw [h] at hc; exact Bool.false_ne_true hc
  · intro h; cases hh : hasKey doc k with
    | false => rfl
    | true => exact absurd hh h

lemma hasKey_append (doc rest : List (String × JVal)) (k : String) :
    hasKey (doc ++ rest) k = (hasKey doc k || hasKey rest k) := by
  simp [hasKey, List.any_append]

lemma lookupKey_append_left (doc rest : List (String × JVal)) (k : String)
    (h : hasKey doc k = true) :
    lookupKey (doc ++ rest) k = lookupKey doc k := by
  unfold lookupKey
  rw [List.find?_append]
  cases hf : doc.find? (fun kv => kv.1 == k) with
  | some kv => simp
  | none =>
    exfalso
    have : (doc.find? (fun kv => kv.1 == k)).isSome := by
      rw [List.find?_isSome]
      obtain ⟨kv, hkv, hk⟩ := (List.any_eq_true).mp h
      exact ⟨kv, hkv, hk⟩
    rw [hf] at this
    simp at this

lemma lookupKey_append_right (doc rest : List (String × JVal)) (k : String)
    (h : hasKey doc k = false) :
    lookupKey (doc ++ rest) k = lookupKey rest k := by
  unfold lookupKey
  rw [List.find?_append]
  cases hf : doc.find? (fun kv => kv.1 == k) with
  | some kv =>
    exfalso
    have hp := List.find?_some hf
    have hm := List.mem_of_find?_eq_some hf
    rw [hasKey_eq_false_iff] at h
    exact h (beq_iff_eq.mp hp ▸ List.mem_map_of_mem Prod.fst hm)
  | none => simp

lemma lookupKey_cons (kv : String × JVal) (rest : List (String × JVal))
    (k : String) :
    lookupKey (kv :: rest) k
      = if kv.1 == k then some kv.2 else lookupKey rest k := by
  unfold lookupKey
  rw [List.find?_cons]
  cases h : (kv.1 == k)
  · simp
  · simp

lemma lookupKey_singleton (k : String) (v : JVal) :
    lookupKey [(k, v)] k = some v := by
  rw [lookupKey_cons, if_pos (by simp)]

lemma find?_map_overwrite (doc : List (String × JVal)) (k : String) (v : JVal)
    (h : hasKey doc k = true) :
    lookupKey (doc.map (fun kv => if kv.1 == k then (k, v) else kv)) k
      = some v := by
  induction doc with
  | nil => simp [hasKey] at h
  | cons kv rest ih =>
    simp only [List.map_cons]
    by_cases hk : (kv.1 == k) = true
    · rw [if_pos hk, lookupKey_cons, if_pos (by simp)]
    · rw [if_neg hk, lookupKey_cons, if_neg hk]
      apply ih
      unfold hasKey at h
      simp only [List.any_cons, Bool.or_eq_true] at h
      rcases h with h | h
      · exact absurd h hk
      · exact h

lemma find?_map_overwrite_other (doc : List (String × JVal)) (k : String)
    (v : JVal) (q : String) (hne : q ≠ k) :
    lookupKey (doc.map (fun kv => if kv.1 == k then (k, v) else kv)) q
      = lookupKey doc q := by
  induction doc with
  | nil => rfl
  | cons kv rest ih =>
    simp only [List.map_cons]
    by_cases hk : (kv.1 == k) = true
    · have h1 : ¬ (((k, v).1 == q) = true) := by
        simp only [beq_iff_eq]
        exact fun hc => hne hc.symm
      have h2 : ¬ ((kv.1 == q) = true) := by
        simp only [beq_iff_eq]
        rw [beq_iff_eq.mp hk]
        exact fun hc => hne hc.symm
      rw [if_pos hk, lookupKey_cons, if_neg h1, lookupKey_cons, if_neg h2]
      exact ih
    · rw [if_neg hk, lookupKey_cons, lookupKey_cons]
      by_cases hq : (kv.1 == q) = true
      · rw [if_pos hq, if_pos hq]
      · rw [if_neg hq, if_neg hq]
        exact ih

lemma lookup_setKey_self (doc : List (String × JVal)) (k : String) (v : JVal) :
    lookupKey (setKey doc k v) k = some v := by
  unfold setKey
  by_cases h : hasKey doc k = true
  · rw [if_pos h]
    exact find?_map_overwrite doc k v h
  · rw [if_neg h]
    rw [lookupKey_append_right doc _ k (by simpa using h)]
    exact lookupKey_singleton k v

lemma lookup_setKey_other (doc : List (String × JVal)) (k : String) (v : JVal)
    (q : String) (hne : q ≠ k) :
    lookupKey (setKey doc k v) q = lookupKey doc q := by
  unfold setKey
  by_cases h : hasKey doc k = true
  · rw [if_pos h]
    exact find?_map_overwrite_other doc k v q hne
  · rw [if_neg h]
    by_cases hq : hasKey doc q = true
    · exact lookupKey_append_left doc _ q hq
    · rw [lookupKey_append_right doc _ q (by simpa using hq)]
      rw [lookupKey_cons, if_neg (by simp only [beq_iff_eq]; exact fun hc => hne hc.symm)]
      unfold lookupKey
      rw [List.find?_nil]
      cases hf : doc.find? (fun kv => kv.1 == q) with
      | some kv =>
        exfalso
        have hp := List.find?_some hf
        have hm := List.mem_of_find?_eq_some hf
        have hq2 : q ∉ doc.map Prod.fst :=
          (hasKey_eq_false_iff doc q).mp (by simpa using hq)
        exact hq2 (beq_iff_eq.mp hp ▸ List.mem_map_of_mem Prod.fst hm)
      | none => rfl

lemma keys_setKey (doc : List (String × JVal)) (k : String) (v : JVal) :
    (setKey doc k v).map Prod.fst
      = if hasKey doc k then doc.map Prod.fst else doc.map Prod.fst ++ [k] := by
  unfold setKey
  by_cases h : hasKey doc k = true
  · rw [if_pos h, if_pos h, List.map_map]
    apply List.map_congr_left
    intro kv _
    by_cases hk : (kv.1 == k) = true
    · simp only [Function.comp_apply, if_pos hk]
      exact (beq_iff_eq.mp hk).symm
    · simp only [Function.comp_apply, if_neg hk]
  · rw [if_neg h, if_neg h, List.map_append]
    rfl

lemma keys_setKey_nodup (doc : List (String × JVal)) (k : String) (v : JVal)
    (hnd : (doc.map Prod.fst).Nodup) :
    ((setKey doc k v).map Prod.fst).Nodup := by
  rw [keys_setKey]
  by_cases h : hasKey doc k = true
  · rw [if_pos h]; exact hnd
  · rw [if_neg h]
    rw [List.nodup_append]
    refine ⟨hnd, List.nodup_singleton k, ?_⟩
    intro a ha hb
    rw [List.mem_singleton] at hb
    subst hb
    exact (hasKey_eq_false_iff doc a).mp (by simpa using h) ha

lemma mem_setKey_of_ne (doc : List (String × JVal)) (k : String) (v : JVal)
    (q : String) (w : JVal) (h : (q, w) ∈ doc) (hne : q ≠ k) :
    (q, w) ∈ setKey doc k v := by
  unfold setKey
  by_cases hh : hasKey doc k = true
  · rw [if_pos hh]
    have : (if (q, w).1 == k then (k, v) else (q, w)) = (q, w) := by
      rw [if_neg (by simpa using hne)]
    exact this ▸ List.mem_map_of_mem _ h
  · rw [if_neg hh]
    exact List.mem_append_left _ h

lemma lookup_setFields_not_mem (data : List (String × JVal)) (k : String)
    (h : k ∉ data.map Prod.fst) :
    ∀ doc, lookupKey (setFields doc data) k = lookupKey doc k := by
  induction data with
  | nil => intro doc; rfl
  | cons kv rest ih =>
    intro doc
    simp only [List.map_cons, List.mem_cons, not_or] at h
    obtain ⟨h1, h2⟩ := h
    unfold setFields
    simp only [List.foldl_cons]
    rw [show List.foldl (fun d kv => setKey d kv.1 kv.2) (setKey doc kv.1 kv.2) rest
        = setFields (setKey doc kv.1 kv.2) rest from rfl]
    rw [ih h2]
    exact lookup_setKey_other doc kv.1 kv.2 k h1

lemma lookup_setFields_mem (data : List (String × JVal)) (k : String) (v : JVal)
    (hnd : (data.map Prod.fst).Nodup) (hm : (k, v) ∈ data) :
    ∀ doc, lookupKey (setFields doc data) k = some v := by
  induction data with
  | nil => simp at hm
  | cons kv rest ih =>
    intro doc
    simp only [List.map_cons, List.nodup_cons] at hnd
    obtain ⟨hk1, hk2⟩ := hnd
    unfold setFields
    simp only [List.foldl_cons]
    rw [show List.foldl (fun d kv => setKey d kv.1 kv.2) (setKey doc kv.1 kv.2) rest
        = setFields (setKey doc kv.1 kv.2) rest from rfl]
    rcases List.mem_cons.mp hm with h | h
    · have hkv1 : kv.1 = k := by rw [← h]
      have hkv2 : kv.2 = v := by rw [← h]
      rw [hkv1, hkv2]
      rw [lookup_setFields_not_mem rest k (by rw [← hkv1]; exact hk1) _]
      exact lookup_setKey_self doc k v
    · have hne : kv.1 ≠ k := by
        intro hc
        exact hk1 (hc ▸ List.mem_map_of_mem Prod.fst h)
      exact ih hk2 h _

lemma backfillFold_present (defs : List (String × JVal)) (k : String) :
    ∀ doc, hasKey doc k = true →
      lookupKey (defs.foldl (fun d kv => if hasKey d kv.1 then d else d ++ [kv]) doc) k
        = lookupKey doc k := by
  induction defs with
  | nil => intro doc _; rfl
  | cons kv rest ih =>
    intro doc h
    simp only [List.foldl_cons]
    by_cases hk : hasKey doc kv.1 = true
    · rw [if_pos hk]; exact ih doc h
    · rw [if_neg hk]
      rw [ih (doc ++ [kv]) (by rw [hasKey_append, h]; rfl)]
      exact lookupKey_append_left doc [kv] k h

lemma backfillFold_missing (defs : List (String × JVal)) (k : String) (v : JVal)
    (hnd : (defs.map Prod.fst).Nodup) (hm : (k, v) ∈ defs) :
    ∀ doc, hasKey doc k = false →
      lookupKey (defs.foldl (fun d kv => if hasKey d kv.1 then d else d ++ [kv]) doc) k
        = some v := by
  induction defs with
  | nil => simp at hm
  | cons kv rest ih =>
    intro doc h
    obtain ⟨k1, v1⟩ := kv
    simp only [List.map_cons, List.nodup_cons] at hnd
    obtain ⟨hk1, hk2⟩ := hnd
    simp only [List.foldl_cons]
    rcases List.mem_cons.mp hm with hkv | hkv
    · obtain ⟨hkl, hvr⟩ := (Prod.mk.injEq ..).mp hkv
      subst hkl
      subst hvr
      rw [if_neg (by rw [h]; exact Bool.false_ne_true)]
      rw [backfillFold_present rest k _
        (by rw [hasKey_append, h]; simp [hasKey])]
      rw [lookupKey_append_right doc _ k h]
      exact lookupKey_singleton k v
    · have hne : k1 ≠ k := by
        intro hc
        exact hk1 (hc ▸ List.mem_map_of_mem Prod.fst hkv)
      by_cases hdk : hasKey doc k1 = true
      · rw [if_pos hdk]
        exact ih hk2 hkv doc h
      · rw [if_neg hdk]
        apply ih hk2 hkv
        rw [hasKey_append, h]
        simp [hasKey]
        exact fun hc => hne hc

lemma backfill_lookup_present (doc : List (String × JVal)) (k : String)
    (h : hasKey doc k = true) :
    lookupKey (backfillDefaults doc) k = lookupKey doc k :=
  backfillFold_present DEFAULT_SETTINGS k doc h

lemma DEFAULT_SETTINGS_keys_nodup : (DEFAULT_SETTINGS.map Prod.fst).Nodup := by
  decide

lemma backfill_lookup_missing (doc : List (String × JVal)) (k : String) (v : JVal)
    (hm : (k, v) ∈ DEFAULT_SETTINGS) (h : hasKey doc k = false) :
    lookupKey (backfillDefaults doc) k = some v :=
  backfillFold_missing DEFAULT_SETTINGS k v DEFAULT_SETTINGS_keys_nodup hm doc h

/-! Characterisation of the reorder loop. -/

lemma lastPos_cons_some (y : String) (ys : List String) (x : String) (j : Nat)
    (h : lastPos ys x = some j) : lastPos (y :: ys) x = some (j + 1) := by
  unfold lastPos
  rw [h]

lemma lastPos_cons_none (y : String) (ys : List String) (x : String)
    (h : lastPos ys x = none) :
    lastPos (y :: ys) x = if y == x then some 0 else none := by
  unfold lastPos
  rw [h]

lemma lastPos_eq_none_iff (order : List String) (x : String) :
    lastPos order x = none ↔ x ∉ order := by
  induction order with
  | nil => simp [lastPos]
  | cons y ys ih =>
    cases h : lastPos ys x with
    | some j =>
      rw [lastPos_cons_some y ys x j h]
      have hx : x ∈ ys := by
        by_contra hx
        rw [← ih, h] at hx
        exact absurd hx (by simp)
      simp [List.mem_cons_of_mem y hx]
    | none =>
      rw [lastPos_cons_none y ys x h]
      have hys : x ∉ ys := ih.mp h
      by_cases hyx : (y == x) = true
      · rw [if_pos hyx]
        rw [beq_iff_eq] at hyx
        subst hyx
        simp
      · rw [if_neg hyx]
        rw [beq_iff_eq] at hyx
        simp only [List.mem_cons, not_or, true_iff]
        exact ⟨fun hc => hyx hc.symm, hys⟩

lemma lastPos_isSome_of_mem (order : List String) (x : String)
    (h : x ∈ order) : ∃ j, lastPos order x = some j := by
  cases hl : lastPos order x with
  | none => rw [lastPos_eq_none_iff] at hl; exact absurd h hl
  | some j => exact ⟨j, rfl⟩

lemma lastPos_get (order : List String) (x : String) (j : Nat)
    (h : lastPos order x = some j) :
    ∃ hj : j < order.length, order.get ⟨j, hj⟩ = x := by
  induction order generalizing j with
  | nil => simp [lastPos] at h
  | cons y ys ih =>
    cases h2 : lastPos ys x with
    | some j2 =>
      rw [lastPos_cons_some y ys x j2 h2] at h
      simp only [Option.some.injEq] at h
      subst h
      obtain ⟨hj2, hget⟩ := ih j2 h2
      refine ⟨by simpa using Nat.succ_lt_succ hj2, ?_⟩
      simpa using hget
    | none =>
      rw [lastPos_cons_none y ys x h2] at h
      by_cases hyx : (y == x) = true
      · rw [if_pos hyx] at h
        simp only [Option.some.injEq] at h
        subst h
        exact ⟨by simp, by simpa using (beq_iff_eq.mp hyx)⟩
      · rw [if_neg hyx] at h
        simp at h

lemma lastPos_of_get (order : List String) (hnd : order.Nodup) (j : Nat)
    (hj : j < order.length) : lastPos order (order.get ⟨j, hj⟩) = some j := by
  induction order generalizing j with
  | nil => simp at hj
  | cons y ys ih =>
    rw [List.nodup_cons] at hnd
    obtain ⟨hy, hnd2⟩ := hnd
    cases j with
    | zero =>
      rw [show (y :: ys).get ⟨0, hj⟩ = y from rfl]
      rw [lastPos_cons_none y ys y ((lastPos_eq_none_iff ys y).mpr hy)]
      simp
    | succ j2 =>
      have hj2 : j2 < ys.length := by simpa using hj
      rw [show (y :: ys).get ⟨j2 + 1, hj⟩ = ys.get ⟨j2, hj2⟩ from rfl]
      exact lastPos_cons_some y ys _ j2 (ih hnd2 j2 hj2)

lemma lastPos_cons_of_mem (y : String) (ys : List String) (x : String)
    (h : x ∈ ys) :
    lastPos (y :: ys) x = (lastPos ys x).map (· + 1) := by
  obtain ⟨j, hj⟩ := lastPos_isSome_of_mem ys x h
  rw [lastPos_cons_some y ys x j hj, hj]
  rfl

lemma reorderAssign_of_some (order : List String) (i0 : Nat) (d : ListingDoc)
    (j : Nat) (h : lastPos order d.oid = some j) :
    reorderAssign order i0 d
      = if objectIdValid d.oid
          then { d with sortOrder := some ((i0 + j : Nat) : Int) } else d := by
  unfold reorderAssign
  rw [h]

lemma reorderAssign_of_none (order : List String) (i0 : Nat) (d : ListingDoc)
    (h : lastPos order d.oid = none) :
    reorderAssign order i0 d = d := by
  unfold reorderAssign
  rw [h]

/-- Pointwise step of `reorderPass` for a valid id at the head of the
submitted sequence. -/
lemma reorderAssign_step_valid (lid : String) (rest : List String) (i : Nat)
    (hv : objectIdValid lid = true) (d : ListingDoc) :
    reorderAssign rest (i + 1)
        (if d.oid == lid then { d with sortOrder := some (i : Int) } else d)
      = reorderAssign (lid :: rest) i d := by
  by_cases hd : (d.oid == lid) = true
  · rw [if_pos hd]
    have hoid : d.oid = lid := beq_iff_eq.mp hd
    have hvd : objectIdValid d.oid = true := hoid ▸ hv
    have hoid2 : ({ d with sortOrder := some (i : Int) } : ListingDoc).oid
        = d.oid := rfl
    cases h2 : lastPos rest d.oid with
    | some j =>
      rw [reorderAssign_of_some rest (i + 1) _ j (hoid2 ▸ h2),
        reorderAssign_of_some (lid :: rest) i d (j + 1)
          (lastPos_cons_some lid rest d.oid j h2)]
      rw [hoid2, if_pos hvd, if_pos hvd]
      rw [show i + 1 + j = i + (j + 1) from by omega]
    | none =>
      rw [reorderAssign_of_none rest (i + 1) _ (hoid2 ▸ h2),
        reorderAssign_of_some (lid :: rest) i d 0 ?hl]
      case hl =>
        rw [lastPos_cons_none lid rest d.oid h2, if_pos (by simp [hoid])]
      rw [if_pos hvd, Nat.add_zero]
  · rw [if_neg hd]
    cases h2 : lastPos rest d.oid with
    | some j =>
      rw [reorderAssign_of_some rest (i + 1) d j h2,
        reorderAssign_of_some (lid :: rest) i d (j + 1)
          (lastPos_cons_some lid rest d.oid j h2)]
      by_cases hvd : objectIdValid d.oid = true
      · rw [if_pos hvd, if_pos hvd]
        rw [show i + 1 + j = i + (j + 1) from by omega]
      · rw [if_neg hvd, if_neg hvd]
    | none =>
      rw [reorderAssign_of_none rest (i + 1) d h2,
        reorderAssign_of_none (lid :: rest) i d ?hl]
      case hl =>
        rw [lastPos_cons_none lid rest d.oid h2,
          if_neg (fun hc => hd (beq_iff_eq.mpr (beq_iff_eq.mp hc).symm))]

/-- Pointwise step of `reorderPass` for a malformed id at the head of the
submitted sequence: the index advances but nothing changes. -/
lemma reorderAssign_step_invalid (lid : String) (rest : List String) (i : Nat)
    (hv : objectIdValid lid = false) (d : ListingDoc) :
    reorderAssign rest (i + 1) d = reorderAssign (lid :: rest) i d := by
  cases h2 : lastPos rest d.oid with
  | some j =>
    rw [reorderAssign_of_some rest (i + 1) d j h2,
      reorderAssign_of_some (lid :: rest) i d (j + 1)
        (lastPos_cons_some lid rest d.oid j h2)]
    by_cases hvd : objectIdValid d.oid = true
    · rw [if_pos hvd, if_pos hvd]
      rw [show i + 1 + j = i + (j + 1) from by omega]
    · rw [if_neg hvd, if_neg hvd]
  | none =>
    by_cases hd : (lid == d.oid) = true
    · rw [reorderAssign_of_none rest (i + 1) d h2,
        reorderAssign_of_some (lid :: rest) i d 0 ?hl]
      case hl =>
        rw [lastPos_cons_none lid rest d.oid h2, if_pos hd]
      rw [if_neg]
      rw [beq_iff_eq] at hd
      rw [← hd, hv]
      exact Bool.false_ne_true
    · rw [reorderAssign_of_none rest (i + 1) d h2,
        reorderAssign_of_none (lid :: rest) i d ?hl]
      case hl =>
        rw [lastPos_cons_none lid rest d.oid h2, if_neg hd]

lemma oid_preserved_map (l : List ListingDoc) (lid : String) (i : Nat) :
    (l.map (fun d => if d.oid == lid
        then { d with sortOrder := some (i : Int) } else d)).map ListingDoc.oid
      = l.map ListingDoc.oid := by
  rw [List.map_map]
  apply List.map_congr_left
  intro d _
  by_cases h : (d.oid == lid) = true
  · simp only [Function.comp_apply, if_pos h]
  · simp only [Function.comp_apply, if_neg h]

/-- The reorder loop, on a store with unique `_id`s, acts as an
independent per-document reassignment. -/
lemma reorderPass_eq_map (order : List String) :
    ∀ (l : List ListingDoc) (i0 : Nat),
      (l.map ListingDoc.oid).Nodup →
      reorderPass l order i0 = l.map (reorderAssign order i0) := by
  induction order with
  | nil =>
    intro l i0 _
    unfold reorderPass
    have : ∀ d ∈ l, reorderAssign [] i0 d = d := by
      intro d _
      unfold reorderAssign lastPos
      simp
    rw [List.map_congr_left this, List.map_id']
  | cons lid rest ih =>
    intro l i0 hnd
    unfold reorderPass
    by_cases hv : objectIdValid lid = true
    · simp only [if_pos hv]
      rw [update_one_eq_map l lid _ hnd]
      have hnd2 : ((l.map (fun d => if d.oid == lid
          then { d with sortOrder := some (i0 : Int) } else d)).map
            ListingDoc.oid).Nodup := by
        rw [oid_preserved_map]
        exact hnd
      rw [ih _ (i0 + 1) hnd2]
      rw [List.map_map]
      apply List.map_congr_left
      intro d _
      exact reorderAssign_step_valid lid rest i0 hv d
    · simp only [if_neg hv]
      rw [ih l (i0 + 1) hnd]
      apply List.map_congr_left
      intro d _
      exact reorderAssign_step_invalid lid rest i0 (by simpa using hv) d

lemma reorderAssign_invalid_doc (order : List String) (i0 : Nat)
    (d : ListingDoc) (h : objectIdValid d.oid = false) :
    reorderAssign order i0 d = d := by
  cases h2 : lastPos order d.oid with
  | none => exact reorderAssign_of_none order i0 d h2
  | some j =>
    rw [reorderAssign_of_some order i0 d j h2,
      if_neg (by rw [h]; exact Bool.false_ne_true)]

lemma map_lastPos_self (order : List String) (hnd : order.Nodup) :
    order.map (fun x => lastPos order x)
      = (List.range order.length).map some := by
  induction order with
  | nil => rfl
  | cons y ys ih =>
    rw [List.nodup_cons] at hnd
    obtain ⟨hy, hnd2⟩ := hnd
    simp only [List.map_cons, List.length_cons]
    rw [lastPos_cons_none y ys y ((lastPos_eq_none_iff ys y).mpr hy),
      if_pos (by simp)]
    have htail : ys.map (fun x => lastPos (y :: ys) x)
        = ys.map (fun x => (lastPos ys x).map (· + 1)) :=
      List.map_congr_left (fun x hx => lastPos_cons_of_mem y ys x hx)
    rw [htail]
    rw [show (fun x => (lastPos ys x).map (· + 1))
        = (Option.map (· + 1)) ∘ (fun x => lastPos ys x) from rfl]
    rw [← List.map_map, ih hnd2, List.map_map, List.range_succ_eq_map,
      List.map_cons, List.map_map]
    rfl

lemma bsonLe_antisymm (a b : Option Int) (h1 : bsonLe a b = true)
    (h2 : bsonLe b a = true) : a = b := by
  cases a <;> cases b <;> simp_all [bsonLe]
  omega

/-- Cons unfolding of the `find?` used by the `_id` point lookups. -/
lemma findDoc_cons (d : ListingDoc) (rest : List ListingDoc) (lid : String) :
    (d :: rest).find? (fun x => x.oid == lid)
      = if d.oid == lid then some d else rest.find? (fun x => x.oid == lid) := by
  rw [List.find?_cons]
  cases h : (d.oid == lid)
  · simp
  · simp

/-- After `update_one` on a store with unique ids, the point lookup of the
updated id returns the rewritten document (provided the update function
does not change `_id`, which `$set` payloads without `_id` never do). -/
lemma find?_update_one (l : List ListingDoc) (lid : String)
    (f : ListingDoc → ListingDoc) (x : ListingDoc)
    (hnd : (l.map ListingDoc.oid).Nodup) (hx : x ∈ l) (hoid : x.oid = lid)
    (hf : (f x).oid = x.oid) :
    (update_one l lid f).find? (fun d => d.oid == lid) = some (f x) := by
  induction l with
  | nil => simp at hx
  | cons d rest ih =>
    simp only [List.map_cons, List.nodup_cons] at hnd
    obtain ⟨hhd, hnd2⟩ := hnd
    unfold update_one
    by_cases h : (d.oid == lid) = true
    · rw [if_pos h]
      have hxd : x = d := by
        rcases List.mem_cons.mp hx with h2 | h2
        · exact h2
        · exfalso
          apply hhd
          rw [beq_iff_eq] at h
          rw [h, ← hoid]
          exact List.mem_map_of_mem ListingDoc.oid h2
      subst hxd
      rw [findDoc_cons, if_pos (by rw [hf]; simpa using hoid)]
    · rw [if_neg h]
      rw [findDoc_cons, if_neg h]
      apply ih hnd2
      rcases List.mem_cons.mp hx with h2 | h2
      · exfalso
        subst h2
        rw [beq_iff_eq] at h
        exact h hoid
      · exact h2

lemma find?_not_mem (l : List ListingDoc) (lid : String)
    (h : ∀ d ∈ l, d.oid ≠ lid) :
    l.find? (fun d => d.oid == lid) = none := by
  induction l with
  | nil => rfl
  | cons d rest ih =>
    rw [findDoc_cons,
      if_neg (by simpa using h d (List.mem_cons_self d rest))]
    exact ih (fun d' hd' => h d' (List.mem_cons_of_mem d hd'))

lemma get_listings_docs_none (s : Store) :
    get_listings_docs s none = (s.listings.mergeSort sortAsc).take 200 := by
  unfold get_listings_docs
  rw [show listingsFilter none = (fun _ => true) from rfl, List.filter_true]

lemma listingsFilter_all : listingsFilter (some "all") = listingsFilter none := by
  show (if ("all" != "" && "all" != "all") = true
      then fun d : ListingDoc => d.category == "all" else fun _ => true)
    = fun _ => true
  rw [if_neg (by decide)]

lemma listingsFilter_empty : listingsFilter (some "") = listingsFilter none := by
  show (if ("" != "" && "" != "all") = true
      then fun d : ListingDoc => d.category == "" else fun _ => true)
    = fun _ => true
  rw [if_neg (by decide)]

lemma listingsFilter_real (c : String) (h1 : c ≠ "") (h2 : c ≠ "all") :
    listingsFilter (some c) = fun d => d.category == c := by
  show (if (c != "" && c != "all") = true
      then fun d : ListingDoc => d.category == c else fun _ => true)
    = fun d => d.category == c
  rw [if_pos (by simp [bne_iff_ne, h1, h2])]

/-! Handler-level unfoldings for a correct admin password. -/

lemma verify_admin_ok (admin : String) : verify_admin admin admin = none := by
  unfold verify_admin
  rw [if_neg (by simp)]

lemma matchesId_eq_false (l : List ListingDoc) (lid : String)
    (h : ∀ d ∈ l, d.oid ≠ lid) : matchesId l lid = false := by
  cases hm : matchesId l lid with
  | false => rfl
  | true =>
    obtain ⟨d, hd, hoid⟩ := (matchesId_iff l lid).mp hm
    exact absurd hoid (h d hd)

lemma matchesId_eq_true (l : List ListingDoc) (lid : String) (x : ListingDoc)
    (hx : x ∈ l) (hoid : x.oid = lid) : matchesId l lid = true :=
  (matchesId_iff l lid).mpr ⟨x, hx, hoid⟩

lemma get_listing_malformed (s : Store) (lid : String)
    (h : objectIdValid lid = false) :
    get_listing s lid = .error listingNotFound := by
  unfold get_listing
  rw [h]
  rfl

lemma get_listing_no_match (s : Store) (lid : String)
    (h : ∀ d ∈ s.listings, d.oid ≠ lid) :
    get_listing s lid = .error listingNotFound := by
  unfold get_listing
  cases hv : objectIdValid lid with
  | false => rfl
  | true =>
    rw [find?_not_mem s.listings lid h]
    rfl

lemma delete_listing_malformed (admin : String) (s : Store) (lid : String)
    (h : objectIdValid lid = false) :
    delete_listing admin s admin lid = (s, .error listingNotFound) := by
  unfold delete_listing
  rw [verify_admin_ok admin, h]
  rfl

lemma delete_listing_no_match (admin : String) (s : Store) (lid : String)
    (h : ∀ d ∈ s.listings, d.oid ≠ lid) :
    delete_listing admin s admin lid = (s, .error listingNotFound) := by
  unfold delete_listing
  rw [verify_admin_ok admin]
  cases hv : objectIdValid lid with
  | false => rfl
  | true =>
    rw [delete_one_not_mem s.listings lid h,
      matchesId_eq_false s.listings lid h]
    rfl

lemma delete_listing_found (admin : String) (s : Store) (lid : String)
    (x : ListingDoc) (hx : x ∈ s.listings) (hoid : x.oid = lid)
    (hv : objectIdValid lid = true) :
    delete_listing admin s admin lid
      = ({ s with listings := delete_one s.listings lid }, .ok ⟨true, lid⟩) := by
  unfold delete_listing
  rw [verify_admin_ok admin, hv, matchesId_eq_true s.listings lid x hx hoid]
  rfl

lemma update_listing_success (admin : String) (s : Store) (lid : String)
    (u : ListingUpdate) (t : Nat) (x : ListingDoc)
    (hnd : (s.listings.map ListingDoc.oid).Nodup)
    (hx : x ∈ s.listings) (hoid : x.oid = lid)
    (hv : objectIdValid lid = true) (hne : u.isEmpty = false) :
    update_listing admin s admin lid u t
      = ({ s with listings := update_one s.listings lid (applySet u t) },
         .ok (listing_to_dict (applySet u t x))) := by
  unfold update_listing
  rw [verify_admin_ok admin, hv, hne,
    matchesId_eq_true s.listings lid x hx hoid]
  dsimp only
  rw [find?_update_one s.listings lid (applySet u t) x hnd hx hoid rfl]
  rfl

lemma update_listing_empty (admin : String) (s : Store) (lid : String)
    (u : ListingUpdate) (t : Nat) (hv : objectIdValid lid = true)
    (he : u.isEmpty = true) :
    update_listing admin s admin lid u t = (s, .error noFieldsToUpdate) := by
  unfold update_listing
  rw [verify_admin_ok admin, hv, he]
  rfl

lemma reorder_listings_ok (admin : String) (s : Store) (order : List String) :
    reorder_listings admin s admin order
      = ({ s with listings := reorderPass s.listings order 0 }, .ok ⟨true⟩) := by
  unfold reorder_listings
  rw [verify_admin_ok admin]

lemma reorderPass_no_match (order : List String) :
    ∀ (l : List ListingDoc) (i : Nat),
      (∀ lid ∈ order, lid ∉ l.map ListingDoc.oid) →
      reorderPass l order i = l := by
  induction order with
  | nil => intro l i _; rfl
  | cons lid rest ih =>
    intro l i h
    unfold reorderPass
    have hl : update_one l lid
        (fun d => { d with sortOrder := some (i : Int) }) = l :=
      update_one_not_mem l lid _ (fun d hd hc =>
        h lid (List.mem_cons_self lid rest)
          (hc ▸ List.mem_map_of_mem ListingDoc.oid hd))
    have htail : ∀ lid' ∈ rest, lid' ∉ l.map ListingDoc.oid :=
      fun lid' h' => h lid' (List.mem_cons_of_mem lid h')
    by_cases hv : objectIdValid lid = true
    · simp only [if_pos hv, hl]
      exact ih l (i + 1) htail
    · simp only [if_neg hv]
      exact ih l (i + 1) htail

lemma update_settings_ok (admin : String) (s : Store)
    (data : List (String × JVal)) (t : Nat) :
    update_settings admin s admin data t
      = ({ s with siteSettings := some (setFields (s.siteSettings.getD [])
            (setKey data "updatedAt" (.s (isoTime t)))) }, .ok ⟨true⟩) := by
  unfold update_settings
  rw [verify_admin_ok admin]

lemma get_settings_some (s : Store) (doc : List (String × JVal))
    (h : s.siteSettings = some doc) :
    get_settings s = backfillDefaults doc := by
  unfold get_settings
  rw [h]

lemma get_settings_none (s : Store) (h : s.siteSettings = none) :
    get_settings s = DEFAULT_SETTINGS := by
  unfold get_settings
  rw [h]

lemma mem_setKey_self (doc : List (String × JVal)) (k : String) (v : JVal) :
    (k, v) ∈ setKey doc k v := by
  unfold setKey
  by_cases h : hasKey doc k = true
  · rw [if_pos h]
    obtain ⟨kv, hkv, hk⟩ := List.any_eq_true.mp h
    refine List.mem_map.mpr ⟨kv, hkv, ?_⟩
    rw [if_pos hk]
  · rw [if_neg h]
    exact List.mem_append_right _ (by simp)

lemma updatedAt_not_default_key :
    "updatedAt" ∉ DEFAULT_SETTINGS.map Prod.fst := by decide

lemma hasKey_of_lookup (doc : List (String × JVal)) (k : String) (v : JVal)
    (h : lookupKey doc k = some v) : hasKey doc k = true := by
  unfold lookupKey at h
  cases hf : doc.find? (fun kv => kv.1 == k) with
  | none => rw [hf] at h; simp at h
  | some kv =>
    rw [hasKey_iff]
    have hp := List.find?_some hf
    have hm := List.mem_of_find?_eq_some hf
    exact beq_iff_eq.mp hp ▸ List.mem_map_of_mem Prod.fst hm

lemma lookup_none_hasKey (doc : List (String × JVal)) (k : String)
    (h : lookupKey doc k = none) : hasKey doc k = false := by
  cases hh : hasKey doc k with
  | false => rfl
  | true =>
    obtain ⟨kv, hkv, hk⟩ := List.any_eq_true.mp hh
    unfold lookupKey at h
    cases hf : doc.find? (fun kv => kv.1 == k) with
    | some kv2 => rw [hf] at h; simp at h
    | none =>
      have hs : (doc.find? (fun kv => kv.1 == k)).isSome := by
        rw [List.find?_isSome]
        exact ⟨kv, hkv, hk⟩
      rw [hf] at hs
      simp at hs

lemma mergeSort_singleton {α : Type} (a : α) (le : α → α → Bool) :
    [a].mergeSort le = [a] :=
  List.perm_singleton.mp (List.mergeSort_perm [a] le)

lemma get_listings_exStore1_empty :
    get_listings exStore1 (some "") = [listing_to_dict exDoc1] := by
  have hdocs : get_listings_docs exStore1 (some "") = [exDoc1] := by
    unfold get_listings_docs
    rw [listingsFilter_empty,
      show exStore1.listings.filter (listingsFilter none) = [exDoc1] from rfl,
      mergeSort_singleton]
    rfl
  unfold get_listings
  rw [hdocs]
  rfl

/-! The claims.  Each claim is settled by exactly one theorem, with a
closed witness instance where the theorem carries hypotheses. -/

/-- C2: every mutating handler (create, update, delete, reorder a listing;
update settings) runs the admin-password check before any store access:
called with a password different from the configured secret, each returns
401 Unauthorized (`invalidPassword`) and the returned store is exactly the
store it was given — zero observable change to stored data. -/
theorem C2_admin_gate_guards_all_mutations (admin pw : String)
    (hpw : pw ≠ admin) (fromiso : String → Option Nat) (s : Store)
    (lc : ListingCreate) (u : ListingUpdate) (lid : String)
    (order : List String) (data : List (String × JVal)) (t : Nat)
    (nid : String) :
    invalidPassword.status = 401
    ∧ create_listing admin fromiso s pw lc t nid = (s, .error invalidPassword)
    ∧ update_listing admin s pw lid u t = (s, .error invalidPassword)
    ∧ delete_listing admin s pw lid = (s, .error invalidPassword)
    ∧ reorder_listings admin s pw order = (s, .error invalidPassword)
    ∧ update_settings admin s pw data t = (s, .error invalidPassword) := by
  have hv : verify_admin admin pw = some invalidPassword := by
    unfold verify_admin
    rw [if_pos (bne_iff_ne.mpr hpw)]
  refine ⟨rfl, ?_, ?_, ?_, ?_, ?_⟩
  · unfold create_listing
    rw [hv]
  · unfold update_listing
    rw [hv]
  · unfold delete_listing
    rw [hv]
  · unfold reorder_listings
    rw [hv]
  · unfold update_settings
    rw [hv]

theorem C2_witness :
    create_listing "changeme" (fun _ => none) exStore "wrong" exCreate 3
        "507f1f77bcf86cd799439099" = (exStore, .error invalidPassword)
    ∧ update_settings "changeme" exStore "wrong" [] 3
        = (exStore, .error invalidPassword) :=
  ⟨(C2_admin_gate_guards_all_mutations "changeme" "wrong" (by decide)
      (fun _ => none) exStore exCreate {} "x" [] [] 3
      "507f1f77bcf86cd799439099").2.1,
   (C2_admin_gate_guards_all_mutations "changeme" "wrong" (by decide)
      (fun _ => none) exStore exCreate {} "x" [] [] 3
      "507f1f77bcf86cd799439099").2.2.2.2.2⟩

/-- C10: the reorder endpoint performs no existence validation on the
submitted ids: a well-formed id that matches no stored listing updates
nothing, and the call still succeeds with `{ok: true}`; in particular a
sequence consisting entirely of ids absent from the store leaves the
store exactly unchanged. -/
theorem C10_reorder_unknown_ids_are_noops (admin : String) (s : Store)
    (order : List String) :
    (reorder_listings admin s admin order).2 = .ok ⟨true⟩
    ∧ ((∀ lid ∈ order, lid ∉ s.listings.map ListingDoc.oid) →
        reorder_listings admin s admin order = (s, .ok ⟨true⟩)) := by
  constructor
  · rw [reorder_listings_ok admin s order]
  · intro h
    rw [reorder_listings_ok admin s order,
      reorderPass_no_match order s.listings 0 h]

theorem C10_witness :
    reorder_listings "changeme" exStore "changeme"
        ["507f1f77bcf86cd799439099"] = (exStore, .ok ⟨true⟩) :=
  (C10_reorder_unknown_ids_are_noops "changeme" exStore
    ["507f1f77bcf86cd799439099"]).2 (by decide)

/-- C8: for an id that is malformed (not a 24-hex-digit ObjectId) or that
matches no stored document, `GET` and `DELETE /api/listings/{id}` fail
with the 404 `listingNotFound` error (never a 500 Internal error) and the
store is unchanged; after a successful delete, a `GET` and a second
`DELETE` of the same id also fail with 404 — idempotent failure, not a
crash. -/
theorem C8_get_delete_notfound_idempotent (admin : String) (s : Store)
    (lid : String) (hnd : (s.listings.map ListingDoc.oid).Nodup) :
    listingNotFound.status = 404
    ∧ (objectIdValid lid = false →
        get_listing s lid = .error listingNotFound
        ∧ delete_listing admin s admin lid = (s, .error listingNotFound))
    ∧ ((∀ d ∈ s.listings, d.oid ≠ lid) →
        get_listing s lid = .error listingNotFound
        ∧ delete_listing admin s admin lid = (s, .error listingNotFound))
    ∧ (∀ x ∈ s.listings, x.oid = lid → objectIdValid lid = true →
        (delete_listing admin s admin lid).2 = .ok ⟨true, lid⟩
        ∧ get_listing (delete_listing admin s admin lid).1 lid
            = .error listingNotFound
        ∧ delete_listing admin (delete_listing admin s admin lid).1 admin lid
            = ((delete_listing admin s admin lid).1,
               .error listingNotFound)) := by
  refine ⟨rfl, ?_, ?_, ?_⟩
  · intro h
    exact ⟨get_listing_malformed s lid h,
      delete_listing_malformed admin s lid h⟩
  · intro h
    exact ⟨get_listing_no_match s lid h,
      delete_listing_no_match admin s lid h⟩
  · intro x hx hoid hv
    have hdel := delete_listing_found admin s lid x hx hoid hv
    have hnomatch : ∀ d ∈ (delete_listing admin s admin lid).1.listings,
        d.oid ≠ lid := by
      rw [hdel]
      exact delete_one_no_match s.listings lid hnd
    exact ⟨by rw [hdel], get_listing_no_match _ lid hnomatch,
      delete_listing_no_match admin _ lid hnomatch⟩

theorem C8_witness :
    (delete_listing "changeme" exStore "changeme"
        "507f1f77bcf86cd799439011").2 = .ok ⟨true, "507f1f77bcf86cd799439011"⟩
    ∧ get_listing (delete_listing "changeme" exStore "changeme"
          "507f1f77bcf86cd799439011").1 "507f1f77bcf86cd799439011"
        = .error listingNotFound
    ∧ delete_listing "changeme" (delete_listing "changeme" exStore "changeme"
          "507f1f77bcf86cd799439011").1 "changeme" "507f1f77bcf86cd799439011"
        = ((delete_listing "changeme" exStore "changeme"
            "507f1f77bcf86cd799439011").1, .error listingNotFound) :=
  (C8_get_delete_notfound_idempotent "changeme" exStore
    "507f1f77bcf86cd799439011" (by decide)).2.2.2 exDoc1 (by decide) rfl
    (by decide)

/-- C6: a partial update whose effective field set is empty — the parsed
body has every field `None`, covering both an empty map and all fields
explicitly null (null means "do not change") — fails with 400 Bad Request
(`noFieldsToUpdate`) and the store is returned unchanged (the id of a
stored listing is well formed; a malformed id is rejected as 404 first).
On success, exactly the provided non-null fields are overwritten, absent
fields keep their stored values, and `updatedAt` is refreshed to the
current time in the same `$set`. -/
theorem C6_update_empty_payload_bad_request (admin : String) (s : Store)
    (lid : String) (u : ListingUpdate) (t : Nat)
    (hnd : (s.listings.map ListingDoc.oid).Nodup) :
    noFieldsToUpdate.status = 400
    ∧ (u.isEmpty = true → objectIdValid lid = true →
        update_listing admin s admin lid u t = (s, .error noFieldsToUpdate))
    ∧ (∀ x ∈ s.listings, x.oid = lid → objectIdValid lid = true →
        u.isEmpty = false →
        (update_listing admin s admin lid u t).2
            = .ok (listing_to_dict (applySet u t x))
        ∧ applySet u t x ∈ (update_listing admin s admin lid u t).1.listings
        ∧ (∀ v, u.title = some v → (applySet u t x).title = v)
        ∧ (u.title = none → (applySet u t x).title = x.title)
        ∧ (∀ v, u.price = some v → (applySet u t x).price = v)
        ∧ (u.price = none → (applySet u t x).price = x.price)
        ∧ (∀ v, u.status = some v → (applySet u t x).status = v)
        ∧ (u.status = none → (applySet u t x).status = x.status)
        ∧ (∀ v, u.image = some v → (applySet u t x).image = v)
        ∧ (u.image = none → (applySet u t x).image = x.image)
        ∧ (∀ v, u.excerpt = some v → (applySet u t x).excerpt = v)
        ∧ (u.excerpt = none → (applySet u t x).excerpt = x.excerpt)
        ∧ (∀ v, u.fullText = some v → (applySet u t x).fullText = v)
        ∧ (u.fullText = none → (applySet u t x).fullText = x.fullText)
        ∧ (∀ v, u.facebookUrl = some v → (applySet u t x).facebookUrl = v)
        ∧ (u.facebookUrl = none →
            (applySet u t x).facebookUrl = x.facebookUrl)
        ∧ (∀ v, u.category = some v → (applySet u t x).category = v)
        ∧ (u.category = none → (applySet u t x).category = x.category)
        ∧ (∀ v, u.location = some v → (applySet u t x).location = v)
        ∧ (u.location = none → (applySet u t x).location = x.location)
        ∧ (applySet u t x).updatedAt = t) := by
  refine ⟨rfl, ?_, ?_⟩
  · intro he hv
    exact update_listing_empty admin s lid u t hv he
  · intro x hx hoid hv hne
    have hupd := update_listing_success admin s lid u t x hnd hx hoid hv hne
    refine ⟨by rw [hupd], ?_, ?_, ?_, ?_, ?_, ?_, ?_, ?_, ?_, ?_, ?_, ?_,
      ?_, ?_, ?_, ?_, ?_, ?_, ?_, rfl⟩
    · rw [hupd]
      show applySet u t x ∈ update_one s.listings lid (applySet u t)
      rw [update_one_eq_map s.listings lid _ hnd]
      have hx2 : (if x.oid == lid then applySet u t x else x)
          = applySet u t x := by
        rw [if_pos (by simpa using hoid)]
      exact hx2 ▸ List.mem_map_of_mem _ hx
    all_goals first
      | (intro v hv2; simp [applySet, hv2])
      | (intro hv2; simp [applySet, hv2])

theorem C6_witness :
    update_listing "changeme" exStore "changeme"
        "507f1f77bcf86cd799439011" {} 99 = (exStore, .error noFieldsToUpdate)
    ∧ (update_listing "changeme" exStore "changeme"
        "507f1f77bcf86cd799439011" exUpdate 99).2
        = .ok (listing_to_dict (applySet exUpdate 99 exDoc1)) :=
  ⟨(C6_update_empty_payload_bad_request "changeme" exStore
      "507f1f77bcf86cd799439011" {} 99 (by decide)).2.1 rfl (by decide),
   ((C6_update_empty_payload_bad_request "changeme" exStore
      "507f1f77bcf86cd799439011" exUpdate 99 (by decide)).2.2 exDoc1
      (by decide) rfl (by decide) rfl).1⟩

/-- C9: a successful partial update never changes `createdAt` (set once at
creation), nor the id, `postedDate` or `sortOrder`: the `ListingUpdate`
schema admits only the nine mutable content fields, so the `$set`
constructed from it leaves the rest intact; listings other than the
targeted one are untouched entirely. -/
theorem C9_update_preserves_immutable_fields (admin : String) (s : Store)
    (lid : String) (u : ListingUpdate) (t : Nat) (x : ListingDoc)
    (hnd : (s.listings.map ListingDoc.oid).Nodup) (hx : x ∈ s.listings)
    (hoid : x.oid = lid) (hv : objectIdValid lid = true)
    (hne : u.isEmpty = false) :
    (update_listing admin s admin lid u t).2
        = .ok (listing_to_dict (applySet u t x))
    ∧ (applySet u t x).createdAt = x.createdAt
    ∧ (applySet u t x).oid = x.oid
    ∧ (applySet u t x).postedDate = x.postedDate
    ∧ (applySet u t x).sortOrder = x.sortOrder
    ∧ (∀ d ∈ s.listings, d.oid ≠ lid →
        d ∈ (update_listing admin s admin lid u t).1.listings) := by
  have hupd := update_listing_success admin s lid u t x hnd hx hoid hv hne
  refine ⟨by rw [hupd], rfl, rfl, rfl, rfl, ?_⟩
  intro d hd hdoid
  rw [hupd]
  show d ∈ update_one s.listings lid (applySet u t)
  rw [update_one_eq_map s.listings lid _ hnd]
  have hd2 : (if d.oid == lid then applySet u t d else d) = d := by
    rw [if_neg (by simpa using hdoid)]
  exact hd2 ▸ List.mem_map_of_mem _ hd

/-- C7: `PUT /api/admin/settings` shallow-merges the submitted field map
into the singleton settings document via upsert: provided keys overwrite
the stored values, omitted keys keep theirs (lazily starting from an empty
document when none exists), `updatedAt` is stamped with the current time,
and any parsed key/value pairs are accepted and persisted verbatim — no
schema validation, the call succeeds for every body. -/
theorem C7_settings_update_shallow_merge_upsert (admin : String) (s : Store)
    (data : List (String × JVal)) (t : Nat)
    (hnd : (data.map Prod.fst).Nodup) :
    (update_settings admin s admin data t).2 = .ok ⟨true⟩
    ∧ ∃ doc2,
        (update_settings admin s admin data t).1.siteSettings = some doc2
        ∧ (∀ k v, (k, v) ∈ data → k ≠ "updatedAt" → lookupKey doc2 k = some v)
        ∧ (∀ k, k ∉ data.map Prod.fst → k ≠ "updatedAt" →
            lookupKey doc2 k = lookupKey (s.siteSettings.getD []) k)
        ∧ lookupKey doc2 "updatedAt" = some (.s (isoTime t)) := by
  have hup := update_settings_ok admin s data t
  have hnd2 : ((setKey data "updatedAt" (.s (isoTime t))).map Prod.fst).Nodup :=
    keys_setKey_nodup data "updatedAt" _ hnd
  refine ⟨by rw [hup], setFields (s.siteSettings.getD [])
      (setKey data "updatedAt" (.s (isoTime t))), by rw [hup], ?_, ?_, ?_⟩
  · intro k v hm hku
    exact lookup_setFields_mem _ k v hnd2
      (mem_setKey_of_ne data "updatedAt" _ k v hm hku) _
  · intro k hk hku
    apply lookup_setFields_not_mem
    rw [keys_setKey]
    by_cases h : hasKey data "updatedAt" = true
    · rw [if_pos h]
      exact hk
    · rw [if_neg h]
      simp only [List.mem_append, List.mem_singleton]
      rintro (hc | hc)
      · exact hk hc
      · exact hku hc
  · exact lookup_setFields_mem _ "updatedAt" _ hnd2
      (mem_setKey_self data "updatedAt" _) _

theorem C7_witness :
    (update_settings "changeme" exStore "changeme"
        [("siteTitle", .s "X")] 7).2 = .ok ⟨true⟩ :=
  (C7_settings_update_shallow_merge_upsert "changeme" exStore
    [("siteTitle", .s "X")] 7 (by decide)).1

/-- C5: `GET /api/settings` returns the stored singleton document with
every default key that is missing from it backfilled from
`DEFAULT_SETTINGS`, and present keys returned as stored; the handler only
issues a `find_one`, so it is embedded as a pure function of the store and
cannot modify the stored document.  With no stored document it returns the
default map verbatim, and after an update of only `siteTitle` to `X` it
returns `siteTitle = X` with every other default key still at its default
value. -/
theorem C5_settings_get_backfills_defaults (admin X : String) (s : Store)
    (doc : List (String × JVal)) (t : Nat) :
    (s.siteSettings = none → get_settings s = DEFAULT_SETTINGS)
    ∧ (s.siteSettings = some doc →
        (∀ k v, (k, v) ∈ DEFAULT_SETTINGS → hasKey doc k = false →
          lookupKey (get_settings s) k = some v)
        ∧ (∀ k, hasKey doc k = true →
          lookupKey (get_settings s) k = lookupKey doc k))
    ∧ (s.siteSettings = none →
        lookupKey (get_settings (update_settings admin s admin
            [("siteTitle", .s X)] t).1) "siteTitle" = some (.s X)
        ∧ ∀ k v, (k, v) ∈ DEFAULT_SETTINGS → k ≠ "siteTitle" →
            lookupKey (get_settings (update_settings admin s admin
              [("siteTitle", .s X)] t).1) k = some v) := by
  refine ⟨fun h => get_settings_none s h, fun h => ?_, fun h => ?_⟩
  · constructor
    · intro k v hm hk
      rw [get_settings_some s doc h]
      exact backfill_lookup_missing doc k v hm hk
    · intro k hk
      rw [get_settings_some s doc h]
      exact backfill_lookup_present doc k hk
  · have hup := update_settings_ok admin s
      [("siteTitle", JVal.s X)] t
    rw [h] at hup
    set doc2 := setFields ((none : Option (List (String × JVal))).getD [])
      (setKey [("siteTitle", JVal.s X)] "updatedAt" (.s (isoTime t)))
      with hdoc2
    have hset : (update_settings admin s admin
        [("siteTitle", JVal.s X)] t).1.siteSettings = some doc2 := by
      rw [hup]
    have hnd2 : ((setKey [("siteTitle", JVal.s X)] "updatedAt"
        (.s (isoTime t))).map Prod.fst).Nodup :=
      keys_setKey_nodup _ "updatedAt" _
        (by exact List.nodup_singleton "siteTitle")
    have hlookupTitle : lookupKey doc2 "siteTitle" = some (.s X) := by
      rw [hdoc2]
      exact lookup_setFields_mem _ "siteTitle" _ hnd2
        (mem_setKey_of_ne _ "updatedAt" _ "siteTitle" _
          (List.mem_singleton_self _) (by decide)) _
    have hgs := get_settings_some _ doc2 hset
    constructor
    · rw [hgs]
      rw [backfill_lookup_present doc2 "siteTitle"
        (hasKey_of_lookup doc2 "siteTitle" _ hlookupTitle)]
      exact hlookupTitle
    · intro k v hm hkt
      have hku : k ≠ "updatedAt" := by
        intro hc
        exact updatedAt_not_default_key
          (hc ▸ List.mem_map_of_mem Prod.fst hm)
      have hlk : lookupKey doc2 k = none := by
        rw [hdoc2]
        rw [lookup_setFields_not_mem _ k ?hk2 _]
        · rfl
        case hk2 =>
          rw [keys_setKey]
          rw [if_neg (by
            rw [show hasKey [("siteTitle", JVal.s X)] "updatedAt" = false
              from rfl]
            simp)]
          simp only [List.mem_append, List.mem_singleton]
          rintro (hc | hc)
          · simp at hc
            exact hkt hc
          · exact hku hc
      rw [hgs]
      exact backfill_lookup_missing doc2 k v hm (lookup_none_hasKey doc2 k hlk)

theorem C5_witness :
    get_settings exStore = DEFAULT_SETTINGS
    ∧ lookupKey (get_settings (update_settings "changeme" exStore "changeme"
        [("siteTitle", .s "X")] 7).1) "siteTitle" = some (.s "X") :=
  ⟨(C5_settings_get_backfills_defaults "changeme" "X" exStore [] 7).1 rfl,
   ((C5_settings_get_backfills_defaults "changeme" "X" exStore [] 7).2.2
      rfl).1⟩

/-- C4 counterexample: the claim says `List(categoryFilter)` returns
exactly the listings whose category equals the filter whenever the filter
is present and not `"all"`.  It fails for the empty-string filter: the
handler builds the category query only when the parameter is truthy in
Python, and the empty string is falsy, so `List(category="")` returns
every listing — here a listing whose category is `"x"`, although the
filter value `""` is present and differs from `"all"`. -/
theorem C4_counterexample_empty_filter :
    ("" : String) ≠ "all"
    ∧ ¬ (∀ r ∈ get_listings exStore1 (some ""), r.category = "") := by
  refine ⟨by decide, fun h => ?_⟩
  have hc := h (listing_to_dict exDoc1)
    (by rw [get_listings_exStore1_empty]; exact List.mem_singleton_self _)
  exact absurd hc (by decide)

/-- C4 (amended): `List(categoryFilter)` returns exactly the listings
whose category equals the filter when the filter is present, non-empty and
not `"all"`; a filter that is absent, empty, or `"all"` means no
filtering; the result is ordered by the stored `sortOrder` ascending and
capped at 200 documents; the handler never fails (it is a total
function of the store). -/
theorem C4_list_filter_sorted_capped (s : Store) (c : String)
    (cat : Option String) :
    (c ≠ "" → c ≠ "all" → ∀ r ∈ get_listings s (some c), r.category = c)
    ∧ (c ≠ "" → c ≠ "all" →
        (s.listings.filter (fun d => d.category == c)).length ≤ 200 →
        (get_listings_docs s (some c)).Perm
          (s.listings.filter (fun d => d.category == c)))
    ∧ get_listings s (some "all") = get_listings s none
    ∧ get_listings s (some "") = get_listings s none
    ∧ (get_listings_docs s cat).Pairwise (fun a b => sortAsc a b = true)
    ∧ (get_listings s cat).length ≤ 200 := by
  refine ⟨?_, ?_, ?_, ?_, ?_, ?_⟩
  · intro h1 h2 r hr
    unfold get_listings at hr
    obtain ⟨d, hd, hrd⟩ := List.mem_map.mp hr
    have hd2 : d ∈ (s.listings.filter (listingsFilter (some c))).mergeSort
        sortAsc := List.take_subset 200 _ hd
    have hd3 : d ∈ s.listings.filter (listingsFilter (some c)) :=
      (List.mergeSort_perm _ sortAsc).mem_iff.mp hd2
    have hp := List.of_mem_filter hd3
    rw [listingsFilter_real c h1 h2] at hp
    rw [← hrd]
    exact beq_iff_eq.mp hp
  · intro h1 h2 hlen
    unfold get_listings_docs
    rw [listingsFilter_real c h1 h2]
    rw [List.take_of_length_le (by rw [List.length_mergeSort]; exact hlen)]
    exact List.mergeSort_perm _ sortAsc
  · unfold get_listings get_listings_docs
    rw [listingsFilter_all]
  · unfold get_listings get_listings_docs
    rw [listingsFilter_empty]
  · exact List.Pairwise.sublist (List.take_sublist 200 _)
      (List.sorted_mergeSort sortAsc_trans sortAsc_total _)
  · unfold get_listings
    rw [List.length_map]
    exact List.length_take_le 200 _

theorem C4_witness :
    (∀ r ∈ get_listings exStore (some "x"), r.category = "x")
    ∧ get_listings exStore (some "all") = get_listings exStore none :=
  ⟨(C4_list_filter_sorted_capped exStore "x" none).1 (by decide) (by decide),
   (C4_list_filter_sorted_capped exStore "x" none).2.2.1⟩

theorem C9_witness :
    (update_listing "changeme" exStore "changeme" "507f1f77bcf86cd799439011"
        exUpdate 99).2 = .ok (listing_to_dict (applySet exUpdate 99 exDoc1))
    ∧ (applySet exUpdate 99 exDoc1).createdAt = exDoc1.createdAt
    ∧ (applySet exUpdate 99 exDoc1).sortOrder = exDoc1.sortOrder :=
  ⟨(C9_update_preserves_immutable_fields "changeme" exStore
      "507f1f77bcf86cd799439011" exUpdate 99 exDoc1 (by decide) (by decide)
      rfl (by decide) rfl).1,
   (C9_update_preserves_immutable_fields "changeme" exStore
      "507f1f77bcf86cd799439011" exUpdate 99 exDoc1 (by decide) (by decide)
      rfl (by decide) rfl).2.1,
   (C9_update_preserves_immutable_fields "changeme" exStore
      "507f1f77bcf86cd799439011" exUpdate 99 exDoc1 (by decide) (by decide)
      rfl (by decide) rfl).2.2.2.2.1⟩

/-- C1: `Create` assigns the new listing `sortOrder = 0` on an empty
store, and one greater than the stored maximum `sortOrder` when one
exists; consequently three listings created in sequence (the API has no
explicit sortOrder on create) carry strictly increasing `sortOrder`
values, and, while the store stays within the 200-result cap, `List()`
returns them in creation order relative to one another (they appear as a
subsequence in that order). -/
theorem C1_create_appends_to_display_order (admin : String)
    (fromiso : String → Option Nat) (s : Store) (m : Int) (dm : ListingDoc)
    (lc1 lc2 lc3 : ListingCreate) (t1 t2 t3 : Nat) (id1 id2 id3 : String)
    (hlen : s.listings.length + 3 ≤ 200) :
    (s.listings = [] →
      (createdDoc fromiso s lc1 t1 id1).sortOrder = some 0)
    ∧ (dm ∈ s.listings → dm.sortOrder = some m →
        (∀ d ∈ s.listings, bsonLe d.sortOrder (some m) = true) →
        (createdDoc fromiso s lc1 t1 id1).sortOrder = some (m + 1))
    ∧ (∃ n1 n2 n3 : Int,
        (createdDoc fromiso s lc1 t1 id1).sortOrder = some n1
        ∧ (createdDoc fromiso
            (create_listing admin fromiso s admin lc1 t1 id1).1
            lc2 t2 id2).sortOrder = some n2
        ∧ (createdDoc fromiso
            (create_listing admin fromiso
              (create_listing admin fromiso s admin lc1 t1 id1).1
              admin lc2 t2 id2).1 lc3 t3 id3).sortOrder = some n3
        ∧ n1 < n2 ∧ n2 < n3)
    ∧ [listing_to_dict (createdDoc fromiso s lc1 t1 id1),
        listing_to_dict (createdDoc fromiso
          (create_listing admin fromiso s admin lc1 t1 id1).1 lc2 t2 id2),
        listing_to_dict (createdDoc fromiso
          (create_listing admin fromiso
            (create_listing admin fromiso s admin lc1 t1 id1).1
            admin lc2 t2 id2).1 lc3 t3 id3)].Sublist
        (get_listings (create_listing admin fromiso
          (create_listing admin fromiso
            (create_listing admin fromiso s admin lc1 t1 id1).1
            admin lc2 t2 id2).1 admin lc3 t3 id3).1 none) := by
  set d1 := createdDoc fromiso s lc1 t1 id1 with hd1
  set s1 := (create_listing admin fromiso s admin lc1 t1 id1).1 with hs1def
  set d2 := createdDoc fromiso s1 lc2 t2 id2 with hd2
  set s2 := (create_listing admin fromiso s1 admin lc2 t2 id2).1 with hs2def
  set d3 := createdDoc fromiso s2 lc3 t3 id3 with hd3
  set s3 := (create_listing admin fromiso s2 admin lc3 t3 id3).1 with hs3def
  have hs1 : s1.listings = s.listings ++ [d1] :=
    create_listing_store admin fromiso s lc1 t1 id1
  have hs2 : s2.listings = s1.listings ++ [d2] :=
    create_listing_store admin fromiso s1 lc2 t2 id2
  have hs3 : s3.listings = s2.listings ++ [d3] :=
    create_listing_store admin fromiso s2 lc3 t3 id3
  have hn1 : d1.sortOrder = some (computeSortOrder s.listings) := rfl
  have hn2 : d2.sortOrder = some (computeSortOrder s1.listings) := rfl
  have hn3 : d3.sortOrder = some (computeSortOrder s2.listings) := rfl
  have hlt12 : computeSortOrder s.listings < computeSortOrder s1.listings := by
    apply computeSortOrder_gt s1.listings d1 _ ?_ hn1
    rw [hs1]
    exact List.mem_append_right _ (List.mem_singleton_self _)
  have hlt23 : computeSortOrder s1.listings < computeSortOrder s2.listings := by
    apply computeSortOrder_gt s2.listings d2 _ ?_ hn2
    rw [hs2]
    exact List.mem_append_right _ (List.mem_singleton_self _)
  refine ⟨?_, ?_, ?_, ?_⟩
  · intro h
    rw [hn1, h, computeSortOrder_nil]
  · intro hmem hso hmax
    rw [hn1, computeSortOrder_max s.listings dm m hmem hso hmax]
  · exact ⟨computeSortOrder s.listings, computeSortOrder s1.listings,
      computeSortOrder s2.listings, hn1, hn2, hn3, hlt12, hlt23⟩
  · have hs3eq : s3.listings = s.listings ++ [d1, d2, d3] := by
      rw [hs3, hs2, hs1]
      simp [List.append_assoc]
    have hpair : [d1, d2, d3].Pairwise (fun a b => sortAsc a b = true) := by
      refine List.pairwise_cons.mpr ⟨?_, List.pairwise_cons.mpr
        ⟨?_, List.pairwise_singleton _ _⟩⟩
      · intro b hb
        rcases List.mem_cons.mp hb with h | h
        · subst h
          show bsonLe d1.sortOrder d2.sortOrder = true
          rw [hn1, hn2]
          simp [bsonLe]
          omega
        · rw [List.mem_singleton] at h
          subst h
          show bsonLe d1.sortOrder d3.sortOrder = true
          rw [hn1, hn3]
          simp [bsonLe]
          omega
      · intro b hb
        rw [List.mem_singleton] at hb
        subst hb
        show bsonLe d2.sortOrder d3.sortOrder = true
        rw [hn2, hn3]
        simp [bsonLe]
        omega
    have hsub0 : [d1, d2, d3].Sublist s3.listings := by
      rw [hs3eq]
      exact List.sublist_append_right _ _
    have hsubsorted :=
      List.sublist_mergeSort sortAsc_trans sortAsc_total hpair hsub0
    have hlen3 : (s3.listings.mergeSort sortAsc).length ≤ 200 := by
      rw [List.length_mergeSort, hs3eq, List.length_append]
      simpa using hlen
    have hdocs : get_listings_docs s3 none = s3.listings.mergeSort sortAsc := by
      rw [get_listings_docs_none]
      exact List.take_of_length_le hlen3
    unfold get_listings
    rw [hdocs]
    exact hsubsorted.map listing_to_dict

theorem C1_witness :
    (createdDoc (fun _ => none) exStore exCreate 3
        "507f1f77bcf86cd799439099").sortOrder = some (1 + 1) :=
  (C1_create_appends_to_display_order "changeme" (fun _ => none) exStore 1
    exDoc2 exCreate exCreate exCreate 3 4 5 "507f1f77bcf86cd799439099"
    "507f1f77bcf86cd79943909a" "507f1f77bcf86cd79943909b"
    (by decide)).2.1 (by decide) rfl (by decide)

/-- C3: `Reorder(orderedIds)` assigns `sortOrder` = 0-based position in
the submitted sequence to each well-formed id (the `enumerate` index
advances over malformed entries too), silently skips malformed ids — no
error and no change for them —, leaves every listing whose id is not in
the sequence with its previous document intact, and returns `{ok: true}`;
a full reorder — a duplicate-free, well-formed sequence covering exactly
the stored ids, within the 200-result cap — followed by `List()` yields
exactly the submitted order. -/
theorem C3_reorder_assigns_positional_order (admin : String) (s : Store)
    (order : List String) (hnd : (s.listings.map ListingDoc.oid).Nodup) :
    (reorder_listings admin s admin order).2 = .ok ⟨true⟩
    ∧ (∀ d ∈ s.listings, ∀ j, ∀ hj : j < order.length,
        order.Nodup → order.get ⟨j, hj⟩ = d.oid → objectIdValid d.oid = true →
        { d with sortOrder := some (j : Int) }
          ∈ (reorder_listings admin s admin order).1.listings)
    ∧ (∀ d ∈ s.listings, d.oid ∉ order →
        d ∈ (reorder_listings admin s admin order).1.listings)
    ∧ (∀ d ∈ s.listings, objectIdValid d.oid = false →
        d ∈ (reorder_listings admin s admin order).1.listings)
    ∧ (order.Perm (s.listings.map ListingDoc.oid) →
        (∀ lid ∈ order, objectIdValid lid = true) →
        s.listings.length ≤ 200 →
        (get_listings (reorder_listings admin s admin order).1 none).map
          ListingOut.id = order) := by
  have hro := reorder_listings_ok admin s order
  have hstore : (reorder_listings admin s admin order).1.listings
      = s.listings.map (reorderAssign order 0) := by
    rw [hro]
    exact reorderPass_eq_map order s.listings 0 hnd
  refine ⟨by rw [hro], ?_, ?_, ?_, ?_⟩
  · intro d hd j hj hndo hget hvd
    rw [hstore]
    have hlp : lastPos order d.oid = some j := by
      rw [← hget]
      exact lastPos_of_get order hndo j hj
    have hre : reorderAssign order 0 d
        = { d with sortOrder := some (j : Int) } := by
      rw [reorderAssign_of_some order 0 d j hlp, if_pos hvd, Nat.zero_add]
    exact hre ▸ List.mem_map_of_mem _ hd
  · intro d hd hmem
    rw [hstore]
    have hre : reorderAssign order 0 d = d :=
      reorderAssign_of_none order 0 d
        ((lastPos_eq_none_iff order d.oid).mpr hmem)
    exact hre ▸ List.mem_map_of_mem _ hd
  · intro d hd hv
    rw [hstore]
    exact (reorderAssign_invalid_doc order 0 d hv) ▸ List.mem_map_of_mem _ hd
  · intro hperm hvalid hlen
    have horder : order.Nodup := hperm.symm.nodup hnd
    have hLlen : (s.listings.map (reorderAssign order 0)).length
        = s.listings.length := List.length_map _ _
    have hOlen : order.length = s.listings.length := by
      rw [hperm.length_eq, List.length_map]
    have hchar : ∀ d ∈ s.listings, ∃ j, lastPos order d.oid = some j
        ∧ reorderAssign order 0 d
            = { d with sortOrder := some ((j : Nat) : Int) } := by
      intro d hd
      have hmem : d.oid ∈ order :=
        hperm.mem_iff.mpr (List.mem_map_of_mem _ hd)
      obtain ⟨j, hj⟩ := lastPos_isSome_of_mem order d.oid hmem
      refine ⟨j, hj, ?_⟩
      rw [reorderAssign_of_some order 0 d j hj,
        if_pos (hvalid d.oid hmem), Nat.zero_add]
    have hkeys : (s.listings.map (reorderAssign order 0)).map
          ListingDoc.sortOrder
        = (s.listings.map ListingDoc.oid).map
            (fun x => (lastPos order x).map (fun j => ((j : Nat) : Int))) := by
      rw [List.map_map, List.map_map]
      apply List.map_congr_left
      intro d hd
      obtain ⟨j, hj, hre⟩ := hchar d hd
      show (reorderAssign order 0 d).sortOrder
        = (lastPos order d.oid).map (fun j => ((j : Nat) : Int))
      rw [hre, hj]
      rfl
    have hrange : order.map
          (fun x => (lastPos order x).map (fun j => ((j : Nat) : Int)))
        = (List.range order.length).map (fun j => some ((j : Nat) : Int)) := by
      rw [show (fun x => (lastPos order x).map (fun j => ((j : Nat) : Int)))
          = (Option.map (fun j => ((j : Nat) : Int)))
            ∘ (fun x => lastPos order x) from rfl,
        ← List.map_map, map_lastPos_self order horder, List.map_map]
      rfl
    have hkperm : ((s.listings.map (reorderAssign order 0)).map
          ListingDoc.sortOrder).Perm
        ((List.range order.length).map (fun j => some ((j : Nat) : Int))) := by
      rw [hkeys, ← hrange]
      exact (hperm.map _).symm
    have hRperm : ((s.listings.map (reorderAssign order 0)).mergeSort
          sortAsc).Perm (s.listings.map (reorderAssign order 0)) :=
      List.mergeSort_perm _ sortAsc
    have hRsorted := List.sorted_mergeSort sortAsc_trans sortAsc_total
      (s.listings.map (reorderAssign order 0))
    have hanti : IsAntisymm (Option Int) (fun a b => bsonLe a b = true) :=
      ⟨fun a b h1 h2 => bsonLe_antisymm a b h1 h2⟩
    have hrangeSorted : List.Pairwise (fun a b : Option Int => bsonLe a b = true)
        ((List.range order.length).map (fun j => some ((j : Nat) : Int))) := by
      refine List.pairwise_map.mpr ?_
      refine (List.pairwise_lt_range order.length).imp ?_
      intro a b hab
      show bsonLe (some ((a : Nat) : Int)) (some ((b : Nat) : Int)) = true
      simp [bsonLe]
      omega
    have hRK : ((s.listings.map (reorderAssign order 0)).mergeSort
          sortAsc).map ListingDoc.sortOrder
        = (List.range order.length).map (fun j => some ((j : Nat) : Int)) :=
      @List.eq_of_perm_of_sorted (Option Int)
        (fun a b => bsonLe a b = true) hanti _ _
        ((hRperm.map _).trans hkperm)
        (List.pairwise_map.mpr hRsorted) hrangeSorted
    have hRlen : ((s.listings.map (reorderAssign order 0)).mergeSort
          sortAsc).length = order.length := by
      rw [List.length_mergeSort, hLlen, hOlen]
    have hdocs : get_listings_docs (reorder_listings admin s admin order).1
        none = (s.listings.map (reorderAssign order 0)).mergeSort sortAsc := by
      rw [get_listings_docs_none, hstore]
      exact List.take_of_length_le (by rw [hRlen, hOlen]; exact hlen)
    unfold get_listings
    rw [hdocs, List.map_map]
    apply List.ext_get
    · rw [List.length_map, hRlen]
    · intro i h1 h2
      have hiR : i < ((s.listings.map (reorderAssign order 0)).mergeSort
          sortAsc).length := by simpa using h1
      have hmemR := List.get_mem _ i hiR
      have hmemL : ((s.listings.map (reorderAssign order 0)).mergeSort
            sortAsc).get ⟨i, hiR⟩ ∈ s.listings.map (reorderAssign order 0) :=
        hRperm.mem_iff.mp hmemR
      obtain ⟨d, hd, hdi⟩ := List.mem_map.mp hmemL
      obtain ⟨j, hj, hre⟩ := hchar d hd
      have h3 : i < (((s.listings.map (reorderAssign order 0)).mergeSort
          sortAsc).map ListingDoc.sortOrder).length := by
        rw [List.length_map]
        exact hiR
      have h4 : i < ((List.range order.length).map
          (fun j => some ((j : Nat) : Int))).length := by
        rw [List.length_map, List.length_range, ← hRlen]
        exact hiR
      have hso : (((s.listings.map (reorderAssign order 0)).mergeSort
          sortAsc).get ⟨i, hiR⟩).sortOrder = some ((i : Nat) : Int) := by
        have h5 := List.get_of_eq hRK ⟨i, h3⟩
        rw [List.get_map] at h5
        rw [List.get_map] at h5
        rw [List.get_range] at h5
        exact h5
      have hji : j = i := by
        rw [← hdi, hre] at hso
        simp only [Option.some.injEq] at hso
        exact_mod_cast hso
      rw [hji] at hj
      obtain ⟨hj2, hget⟩ := lastPos_get order d.oid i hj
      have hoid : (((s.listings.map (reorderAssign order 0)).mergeSort
          sortAsc).get ⟨i, hiR⟩).oid = d.oid := by
        rw [← hdi, hre]
      rw [List.get_map]
      show (((s.listings.map (reorderAssign order 0)).mergeSort
          sortAsc).get ⟨i, hiR⟩).oid = order.get ⟨i, h2⟩
      rw [hoid, ← hget]

theorem C3_witness :
    (get_listings (reorder_listings "changeme" exStore1 "changeme"
        ["507f1f77bcf86cd799439011"]).1 none).map ListingOut.id
      = ["507f1f77bcf86cd799439011"] :=
  (C3_reorder_assigns_positional_order "changeme" exStore1
    ["507f1f77bcf86cd799439011"] (by decide)).2.2.2.2 (by decide) (by decide)
    (by decide)

end Unhinged
